import Mathlib

/-!
# Ambient IoT simulation and BSM header

Two programs of the repository are embedded here.

`scratch/its-simulation/bsm-header.cc` (namespace `ItsSimulation`): the methods
`Serialize`, `Deserialize` and `GetSerializedSize` of `BsmHeader`, over the byte
reads and writes of the ns-3 `Buffer::Iterator`.

`scratch/environmental-iot/environmental-iot.cc` (namespace `AmbientIoT`): the
energy account of `AmbientIoTDevice`, `AmbientEnergySource::CalculateHarvestRate`,
`CalcDistance`, the nearest-neighbour scans, the set-up loops and the scheduled
eligibility checks of `main`. Conventions of that embedding:

* a C++ `double` is an exact rational (`ℚ`): the statements are statements of
  exact arithmetic, rounding and overflow are not modelled; a finite `double` is
  at most `DBL_MAX`. Where rounding decides a statement (the value of
  `CalculateHarvestRate` below `0.1`), the method is embedded a second time, in
  the namespace `Binary64`, over IEEE 754 binary64 values and operations;
* an ns-3 `Time` is its value in seconds, so `Seconds x` is `x` and
  `t.GetSeconds ()` is `t`;
* a `Ptr<Node>` is the index of the node in its `NodeContainer`, a
  `Ptr<AmbientIoTDevice>` is the index of the device in the vector
  `ambientDevices`, and `nullptr` is `none`;
* `std::sqrt` is a parameter `sqrt` of `CalcDistance` and of everything that
  calls it: the results hold for every function put in its place, or for every
  function with the property a theorem names.
-/

namespace ItsSimulation

/-! ## Definitions (`scratch/its-simulation/bsm-header.cc`)

Conventions of this part: a byte is a natural number below `256`; an ns-3
`Buffer::Iterator` is, for writing, the list of the bytes written so far and,
for reading, the list of the bytes still to read; a `double` is its 64-bit
pattern (a natural number below `2^64`), which is all that `memcpy` sees of it;
an ns-3 `Time` is its `int64_t` count of nanoseconds. -/

/-- The ns-3 call `Buffer::Iterator::WriteU8`: one byte is written. -/
def WriteU8 (start : List Nat) (data : Nat) : List Nat :=
  start ++ [data % 256]

/-- The ns-3 call `Buffer::Iterator::WriteU32`: four bytes, the least
significant first. -/
def WriteU32 (start : List Nat) (data : Nat) : List Nat :=
  let start := WriteU8 start (data % 256)
  let start := WriteU8 start (data / 256 % 256)
  let start := WriteU8 start (data / 256 ^ 2 % 256)
  WriteU8 start (data / 256 ^ 3 % 256)

/-- The ns-3 call `Buffer::Iterator::WriteHtonU64`: eight bytes in network
order, the most significant first. -/
def WriteHtonU64 (start : List Nat) (data : Nat) : List Nat :=
  let start := WriteU8 start (data / 256 ^ 7 % 256)
  let start := WriteU8 start (data / 256 ^ 6 % 256)
  let start := WriteU8 start (data / 256 ^ 5 % 256)
  let start := WriteU8 start (data / 256 ^ 4 % 256)
  let start := WriteU8 start (data / 256 ^ 3 % 256)
  let start := WriteU8 start (data / 256 ^ 2 % 256)
  let start := WriteU8 start (data / 256 % 256)
  WriteU8 start (data % 256)

/-- The ns-3 call `Buffer::Iterator::ReadU8`: the next byte and the iterator
moved past it; `none` when the buffer is exhausted. -/
def ReadU8 : List Nat → Option (Nat × List Nat)
  | [] => none
  | byte :: start => some (byte, start)

/-- The ns-3 call `Buffer::Iterator::ReadU32`: four bytes, the least significant
first. -/
def ReadU32 (start : List Nat) : Option (Nat × List Nat) :=
  match ReadU8 start with
  | none => none
  | some (byte0, start) =>
    match ReadU8 start with
    | none => none
    | some (byte1, start) =>
      match ReadU8 start with
      | none => none
      | some (byte2, start) =>
        match ReadU8 start with
        | none => none
        | some (byte3, start) =>
          some (byte0 + byte1 * 256 + byte2 * 256 ^ 2 + byte3 * 256 ^ 3, start)

/-- The loop `for (i = 0; i < n; i++) buffer[i] = start.ReadU8 ();`: the buffer
filled and the iterator afterwards. -/
def readLoop : Nat → List Nat → Option (List Nat × List Nat)
  | 0, start => some ([], start)
  | n + 1, start =>
    match ReadU8 start with
    | none => none
    | some (byte, start) =>
      match readLoop n start with
      | none => none
      | some (buffer, start) => some (byte :: buffer, start)

/-- The ns-3 call `Buffer::Iterator::ReadNtohU64`: eight bytes in network order,
`retval <<= 8; retval |= ReadU8 ();` eight times. -/
def ReadNtohU64 (start : List Nat) : Option (Nat × List Nat) :=
  match readLoop 8 start with
  | none => none
  | some (bytes, start) => some (bytes.foldl (fun retval byte => retval * 256 + byte) 0, start)

/-- The call `memcpy (buffer, &value, 8)` on a `double`: the eight bytes of its
pattern, in the order of a little-endian host. -/
def memcpyToBuffer (value : Nat) : List Nat :=
  [value % 256, value / 256 % 256, value / 256 ^ 2 % 256, value / 256 ^ 3 % 256,
   value / 256 ^ 4 % 256, value / 256 ^ 5 % 256, value / 256 ^ 6 % 256,
   value / 256 ^ 7 % 256]

/-- The call `memcpy (&value, buffer, 8)`: the pattern whose bytes, in the order
of a little-endian host, are those of `buffer`. -/
def memcpyFromBuffer (buffer : List Nat) : Nat :=
  buffer.foldr (fun byte value => byte + 256 * value) 0

/-- The loop `for (i = 0; i < 8; i++) start.WriteU8 (buffer[i]);`. -/
def writeLoop (start : List Nat) (buffer : List Nat) : List Nat :=
  buffer.foldl WriteU8 start

/-- The conversion of the `int64_t` that `GetNanoSeconds` returns to the
`uint64_t` parameter of `WriteHtonU64`. -/
def toUint64 (value : Int) : Nat :=
  (value % 2 ^ 64).toNat

/-- The factory `NanoSeconds (uint64_t)`: the `Time` whose `int64_t` count is the
value converted back. -/
def NanoSeconds (value : Nat) : Int :=
  if value < 2 ^ 63 then (value : Int) else (value : Int) - 2 ^ 64

/-- The ns-3 `Vector` of the header, by the patterns of its coordinates. -/
structure Vector where
  x : Nat
  y : Nat
  z : Nat
  deriving DecidableEq

/-- The member variables of `BsmHeader`. -/
structure BsmHeader where
  m_vehicleId : Nat
  m_position : Vector
  m_speed : Nat
  m_direction : Nat
  m_timestamp : Int
  deriving DecidableEq

namespace BsmHeader

/-- The method `GetSerializedSize`: `sizeof` of a `uint32_t`, of five `double`s
and of a `uint64_t`. -/
def GetSerializedSize (_h : BsmHeader) : Nat :=
  4 + 8 + 8 + 8 + 8 + 8 + 8

/-- The method `Serialize`: the iterator after the writes. -/
def Serialize (h : BsmHeader) (start : List Nat) : List Nat :=
  let start := WriteU32 start h.m_vehicleId
  let start := writeLoop start (memcpyToBuffer h.m_position.x)
  let start := writeLoop start (memcpyToBuffer h.m_position.y)
  let start := writeLoop start (memcpyToBuffer h.m_position.z)
  let start := writeLoop start (memcpyToBuffer h.m_speed)
  let start := writeLoop start (memcpyToBuffer h.m_direction)
  WriteHtonU64 start (toUint64 h.m_timestamp)

/-- The method `Deserialize`, called on the header `h`: the value returned, the
header and the iterator afterwards; `none` when the buffer is too short. -/
def Deserialize (h : BsmHeader) (start : List Nat) : Option (Nat × BsmHeader × List Nat) :=
  match ReadU32 start with
  | none => none
  | some (id, start) =>
    let h := { h with m_vehicleId := id }
    match readLoop 8 start with
    | none => none
    | some (buffer, start) =>
      let h := { h with m_position := { h.m_position with x := memcpyFromBuffer buffer } }
      match readLoop 8 start with
      | none => none
      | some (buffer, start) =>
        let h := { h with m_position := { h.m_position with y := memcpyFromBuffer buffer } }
        match readLoop 8 start with
        | none => none
        | some (buffer, start) =>
          let h := { h with m_position := { h.m_position with z := memcpyFromBuffer buffer } }
          match readLoop 8 start with
          | none => none
          | some (buffer, start) =>
            let h := { h with m_speed := memcpyFromBuffer buffer }
            match readLoop 8 start with
            | none => none
            | some (buffer, start) =>
              let h := { h with m_direction := memcpyFromBuffer buffer }
              match ReadNtohU64 start with
              | none => none
              | some (value, start) =>
                let h := { h with m_timestamp := NanoSeconds value }
                some (h.GetSerializedSize, h, start)

end BsmHeader

end ItsSimulation

namespace AmbientIoT

/-! ## Definitions -/

/-- The enumeration `AmbientIoTDeviceType`. -/
inductive AmbientIoTDeviceType where
  | ACTIVE_DEVICE
  | MONOSTATIC_BACKSCATTER
  | BISTATIC_BACKSCATTER
  | CARRIER_WAVE_SOURCE
  deriving DecidableEq

open AmbientIoTDeviceType

/-- An ns-3 `Time`, by its value in seconds. -/
abbrev Time := ℚ

/-- The factory `Seconds (x)`. -/
def Seconds (x : ℚ) : Time := x

/-- The accessor `Time::GetSeconds`. -/
def Time.GetSeconds (t : Time) : ℚ := t

/-- The member variables of `AmbientIoTDevice`. -/
structure AmbientIoTDevice where
  m_deviceType : AmbientIoTDeviceType
  m_hasEnergyHarvester : Bool
  m_harvestRate : ℚ
  m_currentEnergy : ℚ
  m_lastHarvestTime : Time
  m_node : Option Nat
  m_carrierSource : Option Nat
  m_readerNode : Option Nat
  deriving DecidableEq

namespace AmbientIoTDevice

/-- The constructor `AmbientIoTDevice ()`. It does not initialise `m_harvestRate`:
`uninit` is the value that member happens to hold. The three `Ptr` members are
default-constructed, hence null. -/
def new (uninit : ℚ) : AmbientIoTDevice :=
  { m_deviceType := ACTIVE_DEVICE
    m_hasEnergyHarvester := false
    m_harvestRate := uninit
    m_currentEnergy := 0
    m_lastHarvestTime := Seconds 0
    m_node := none
    m_carrierSource := none
    m_readerNode := none }

/-- The setter `SetDeviceType`. -/
def SetDeviceType (d : AmbientIoTDevice) (type : AmbientIoTDeviceType) : AmbientIoTDevice :=
  { d with m_deviceType := type }

/-- The method `EnableEnergyHarvester`. -/
def EnableEnergyHarvester (d : AmbientIoTDevice) (harvestRate : ℚ) : AmbientIoTDevice :=
  { d with m_hasEnergyHarvester := true, m_harvestRate := harvestRate }

/-- The setter `SetAssociatedNode`. -/
def SetAssociatedNode (d : AmbientIoTDevice) (node : Option Nat) : AmbientIoTDevice :=
  { d with m_node := node }

/-- The setter `SetCarrierWaveSource`. -/
def SetCarrierWaveSource (d : AmbientIoTDevice) (source : Option Nat) : AmbientIoTDevice :=
  { d with m_carrierSource := source }

/-- The getter `GetCarrierWaveSource`. -/
def GetCarrierWaveSource (d : AmbientIoTDevice) : Option Nat := d.m_carrierSource

/-- The setter `SetReaderNode`. -/
def SetReaderNode (d : AmbientIoTDevice) (reader : Option Nat) : AmbientIoTDevice :=
  { d with m_readerNode := reader }

/-- First statement of `CanTransmit` (the `if (m_hasEnergyHarvester)` block):
the energy harvested since `m_lastHarvestTime` is added to `m_currentEnergy`.
`now` is the value of `Simulator::Now ()`. -/
def harvestUpdate (now : Time) (d : AmbientIoTDevice) : AmbientIoTDevice :=
  if d.m_hasEnergyHarvester then
    let duration := Time.GetSeconds (now - d.m_lastHarvestTime)
    { d with
      m_currentEnergy := d.m_currentEnergy + d.m_harvestRate * duration
      m_lastHarvestTime := now }
  else d

/-- Rest of `CanTransmit`: the `switch (m_deviceType)` that sets `canTransmit`
and pays for the transmission. The result is the returned flag and the device
afterwards. -/
def energySwitch (d : AmbientIoTDevice) : Bool × AmbientIoTDevice :=
  match d.m_deviceType with
  | ACTIVE_DEVICE =>
    if d.m_currentEnergy ≥ 0.1 then
      (true, { d with m_currentEnergy := d.m_currentEnergy - 0.1 })
    else (false, d)
  | MONOSTATIC_BACKSCATTER | BISTATIC_BACKSCATTER =>
    if d.m_currentEnergy ≥ 0.01 then
      (true, { d with m_currentEnergy := d.m_currentEnergy - 0.01 })
    else (false, d)
  | CARRIER_WAVE_SOURCE => (true, d)

/-- The method `CanTransmit`, called when the simulation clock shows `now`. -/
def CanTransmit (now : Time) (d : AmbientIoTDevice) : Bool × AmbientIoTDevice :=
  energySwitch (harvestUpdate now d)

end AmbientIoTDevice

/-- A sequence of `CanTransmit` calls on one device, one per listed time, in
order; the device after the last call. -/
def runChecks : List Time → AmbientIoTDevice → AmbientIoTDevice
  | [], d => d
  | now :: rest, d => runChecks rest (d.CanTransmit now).2

/-- The call `ptr->CanTransmit ()` on the device objects `devs`: the returned
flag and the objects afterwards; `none` when `ptr` designates no object. -/
def callCanTransmit (now : Time) (ptr : Nat) (devs : List AmbientIoTDevice) :
    Option (Bool × List AmbientIoTDevice) :=
  match devs[ptr]? with
  | none => none
  | some d => some ((d.CanTransmit now).1, devs.set ptr (d.CanTransmit now).2)

/-- The event scheduled by `main` for a `BISTATIC_BACKSCATTER` device: the
condition `device->CanTransmit() && device->GetCarrierWaveSource()->CanTransmit()`
with the short circuit of `&&`. The flag tells whether the transmission branch
is entered; `none` is the dereference of a null carrier pointer. -/
def bistaticEvent (now : Time) (device : Nat) (devs : List AmbientIoTDevice) :
    Option (Bool × List AmbientIoTDevice) :=
  match callCanTransmit now device devs with
  | none => none
  | some (false, devs1) => some (false, devs1)
  | some (true, devs1) =>
    match devs1[device]? with
    | none => none
    | some d =>
      match d.GetCarrierWaveSource with
      | none => none
      | some carrier => callCanTransmit now carrier devs1

/-- The member variable of `AmbientEnergySource`. -/
structure AmbientEnergySource where
  m_energyDensity : ℚ
  deriving DecidableEq

namespace AmbientEnergySource

/-- The constructor `AmbientEnergySource ()`. -/
def new : AmbientEnergySource := { m_energyDensity := 0.001 }

/-- The setter `SetEnergyDensity`: it stores whatever it is given. -/
def SetEnergyDensity (_s : AmbientEnergySource) (density : ℚ) : AmbientEnergySource :=
  { m_energyDensity := density }

/-- First statement of `CalculateHarvestRate`: the value of the local `distance`
after `if (distance <= 0.1) distance = 0.1;`. -/
def clampDistance (distance : ℚ) : ℚ :=
  if distance ≤ 0.1 then 0.1 else distance

/-- The method `CalculateHarvestRate`, in exact arithmetic (its binary64 reading
is `Binary64.AmbientEnergySource.CalculateHarvestRate`). -/
def CalculateHarvestRate (s : AmbientEnergySource) (distance : ℚ) : ℚ :=
  let distance := clampDistance distance
  s.m_energyDensity / (distance * distance)

end AmbientEnergySource

/-- The ns-3 `Vector` (three coordinates). -/
structure Vector where
  x : ℚ
  y : ℚ
  z : ℚ
  deriving DecidableEq

/-- The function `CalcDistance`; `sqrt` stands for `std::sqrt`. The differences,
products and sums are exact: they stand for those of the code as long as the
sum of squares stays within `DBL_MAX`, beyond which the code has an infinity. -/
def CalcDistance (sqrt : ℚ → ℚ) (a b : Vector) : ℚ :=
  let dx := a.x - b.x
  let dy := a.y - b.y
  let dz := a.z - b.z
  sqrt (dx * dx + dy * dy + dz * dz)

/-- The constant `std::numeric_limits<double>::max ()`: the largest finite
binary64 number, `(2^53 - 1) * 2^971`. -/
def DBL_MAX : ℚ := (2 ^ 53 - 1) * 2 ^ 971

/-- The body of the scan loop `for (j = ...; j < N; ++j)` of `main`, run from
index `j` over the positions left, on the loop state `(minDist, closest)`. -/
def scanFrom (sqrt : ℚ → ℚ) (devicePos : Vector) :
    List Vector → Nat → ℚ × Option Nat → ℚ × Option Nat
  | [], _, st => st
  | bsPos :: rest, j, st =>
    let dist := CalcDistance sqrt devicePos bsPos
    if dist < st.1 then scanFrom sqrt devicePos rest (j + 1) (dist, some j)
    else scanFrom sqrt devicePos rest (j + 1) st

/-- The nearest-neighbour scan of `main`: `minDist` starts at `DBL_MAX`, the
pointer at `nullptr`, and the loop visits the candidates in index order. The
result is the final `(minDist, closest)`. -/
def nearestScan (sqrt : ℚ → ℚ) (devicePos : Vector) (positions : List Vector) :
    ℚ × Option Nat :=
  scanFrom sqrt devicePos positions 0 (DBL_MAX, none)

/-- One round of the loop of `main` that sets up an active device: `node` is the
index of the device node, `devicePos` its position, `baseStations` the positions
of the base stations. -/
def setupActiveDevice (sqrt : ℚ → ℚ) (ambientSource : AmbientEnergySource)
    (baseStations : List Vector) (node : Nat) (devicePos : Vector) (uninit : ℚ) :
    AmbientIoTDevice :=
  let device := AmbientIoTDevice.new uninit
  let device := device.SetDeviceType ACTIVE_DEVICE
  let device := device.SetAssociatedNode (some node)
  let scan := nearestScan sqrt devicePos baseStations
  let minDist := scan.1
  let closestBS := scan.2
  let device := device.SetReaderNode closestBS
  let harvestRate := ambientSource.CalculateHarvestRate minDist
  device.EnableEnergyHarvester harvestRate

/-- One round of the loop of `main` that sets up a bistatic backscatter device.
The carrier sources are the first entries of `ambientDevices`, so the carrier
found at index `j` of `carrierWaveSources` is the device `ambientDevices[j]`. -/
def setupBistaticDevice (sqrt : ℚ → ℚ) (ambientSource : AmbientEnergySource)
    (baseStations carrierWaveSources : List Vector) (node : Nat) (devicePos : Vector)
    (uninit : ℚ) : AmbientIoTDevice :=
  let device := AmbientIoTDevice.new uninit
  let device := device.SetDeviceType BISTATIC_BACKSCATTER
  let device := device.SetAssociatedNode (some node)
  let scanBS := nearestScan sqrt devicePos baseStations
  let minDistBS := scanBS.1
  let closestBS := scanBS.2
  let device := device.SetReaderNode closestBS
  let scanCW := nearestScan sqrt devicePos carrierWaveSources
  let minDistCW := scanCW.1
  let closestCW := scanCW.2
  let device := device.SetCarrierWaveSource closestCW
  let harvestRate := ambientSource.CalculateHarvestRate (min minDistBS minDistCW)
  device.EnableEnergyHarvester harvestRate

/-- A square root on the rationals that is exact on squares: the integer square
roots of numerator and denominator. Used to evaluate `CalcDistance` on concrete
positions. -/
def sqrtExact (q : ℚ) : ℚ :=
  (Nat.sqrt q.num.toNat : ℚ) / (Nat.sqrt q.den : ℚ)

/-- The stored energy of the device object at index `k`, when there is one. -/
def energyAt (devs : List AmbientIoTDevice) (k : Nat) : Option ℚ :=
  devs[k]?.map AmbientIoTDevice.m_currentEnergy

/-- A device in a chosen state: a constructed device whose role, harvester,
stored energy, accrual time and carrier have been set to the given values. -/
def deviceWith (type : AmbientIoTDeviceType) (harvester : Bool) (rate energy : ℚ)
    (last : Time) (carrier : Option Nat) : AmbientIoTDevice :=
  { AmbientIoTDevice.new rate with
    m_deviceType := type
    m_hasEnergyHarvester := harvester
    m_currentEnergy := energy
    m_lastHarvestTime := last
    m_carrierSource := carrier }

/-- One round of the loop of `main` that sets up a carrier source: `node` is the
index of its node. The harvester is not enabled. -/
def setupCarrierSource (node : Nat) (uninit : ℚ) : AmbientIoTDevice :=
  let device := AmbientIoTDevice.new uninit
  let device := device.SetDeviceType CARRIER_WAVE_SOURCE
  device.SetAssociatedNode (some node)

/-- One round of the loop of `main` that sets up a monostatic backscatter
device: the reader is also the carrier, so the carrier pointer is set to null. -/
def setupMonostaticDevice (sqrt : ℚ → ℚ) (ambientSource : AmbientEnergySource)
    (baseStations : List Vector) (node : Nat) (devicePos : Vector) (uninit : ℚ) :
    AmbientIoTDevice :=
  let device := AmbientIoTDevice.new uninit
  let device := device.SetDeviceType MONOSTATIC_BACKSCATTER
  let device := device.SetAssociatedNode (some node)
  let scan := nearestScan sqrt devicePos baseStations
  let minDist := scan.1
  let closestBS := scan.2
  let device := device.SetReaderNode closestBS
  let device := device.SetCarrierWaveSource none
  let harvestRate := ambientSource.CalculateHarvestRate minDist
  device.EnableEnergyHarvester harvestRate

/-- The getter `GetDeviceType`. -/
def AmbientIoTDevice.GetDeviceType (d : AmbientIoTDevice) : AmbientIoTDeviceType :=
  d.m_deviceType

/-- The four set-up loops of `main`, in their order: carrier sources, active
devices, monostatic devices, bistatic devices. Each list gives the positions of
the nodes of one `NodeContainer`; every device is pushed on `ambientDevices` as
soon as it is set up, so the index of a device in the result is its identity.
`uninit k` is the value the constructor leaves in `m_harvestRate` of the device
created `k`-th. -/
def buildAmbientDevices (sqrt : ℚ → ℚ) (ambientSource : AmbientEnergySource)
    (baseStations carrierWaveSources activeDevices monostaticDevices bistaticDevices :
      List Vector) (uninit : Nat → ℚ) : List AmbientIoTDevice :=
  let ambientDevices : List AmbientIoTDevice := []
  let ambientDevices := ambientDevices ++ carrierWaveSources.mapIdx (fun i _ =>
    setupCarrierSource i (uninit (ambientDevices.length + i)))
  let ambientDevices := ambientDevices ++ activeDevices.mapIdx (fun i devicePos =>
    setupActiveDevice sqrt ambientSource baseStations i devicePos
      (uninit (ambientDevices.length + i)))
  let ambientDevices := ambientDevices ++ monostaticDevices.mapIdx (fun i devicePos =>
    setupMonostaticDevice sqrt ambientSource baseStations i devicePos
      (uninit (ambientDevices.length + i)))
  let ambientDevices := ambientDevices ++ bistaticDevices.mapIdx (fun i devicePos =>
    setupBistaticDevice sqrt ambientSource baseStations carrierWaveSources i devicePos
      (uninit (ambientDevices.length + i)))
  ambientDevices

/-- An event put on the simulator queue by the scheduling loop of `main`: its
time, the device it is about, and the role of that device, which selects the
body of the event. -/
structure ScheduledCheck where
  time : Time
  device : Nat
  role : AmbientIoTDeviceType
  deriving DecidableEq

/-- The scheduling loop of `main` (`for (i = 0; i < ambientDevices.size (); ++i)`):
a carrier source gets a bare `CanTransmit` at `10` s, every other device one
check at `60 + (i % 60)` s. -/
def scheduleTransmissions (ambientDevices : List AmbientIoTDevice) : List ScheduledCheck :=
  ambientDevices.mapIdx (fun i device =>
    if device.GetDeviceType = CARRIER_WAVE_SOURCE then
      { time := Seconds 10, device := i, role := CARRIER_WAVE_SOURCE }
    else
      let startTime := Seconds (60 + ((i % 60 : Nat) : ℚ))
      { time := startTime, device := i, role := device.GetDeviceType })

/-- What a scheduled event does when the simulator fires it at its time: the
bare call for a carrier source, the `if (device->CanTransmit ())` of an active
or monostatic device, the two-call condition of a bistatic device. The flag is
the value of the condition (for a carrier source, of the call). -/
def fireCheck (ev : ScheduledCheck) (devs : List AmbientIoTDevice) :
    Option (Bool × List AmbientIoTDevice) :=
  match ev.role with
  | CARRIER_WAVE_SOURCE => callCanTransmit ev.time ev.device devs
  | ACTIVE_DEVICE => callCanTransmit ev.time ev.device devs
  | MONOSTATIC_BACKSCATTER => callCanTransmit ev.time ev.device devs
  | BISTATIC_BACKSCATTER => bistaticEvent ev.time ev.device devs

/-- The simulator firing a sequence of events one after the other: the flag of
each event, in order, and the device objects at the end. -/
def fireAll : List ScheduledCheck → List AmbientIoTDevice →
    Option (List (ScheduledCheck × Bool) × List AmbientIoTDevice)
  | [], devs => some ([], devs)
  | ev :: rest, devs =>
    match fireCheck ev devs with
    | none => none
    | some (flag, devs1) =>
      match fireAll rest devs1 with
      | none => none
      | some (flags, devs2) => some ((ev, flag) :: flags, devs2)

/-- The base station positions that `main` gives to `bsPositions`. -/
def bsPositions : List Vector :=
  [⟨0, 0, 30⟩, ⟨866, 500, 30⟩, ⟨-866, 500, 30⟩]

/-- The carrier source positions that `main` gives to `cwPositions`. -/
def cwPositions : List Vector :=
  [⟨-300, -300, 10⟩, ⟨300, -300, 10⟩, ⟨-300, 300, 10⟩, ⟨300, 300, 10⟩, ⟨0, 0, 10⟩]

/-- The registry of `main` itself: the energy density is set to `0.001`, the
base stations and carrier sources stand at `bsPositions` and `cwPositions`; the
positions of the active, monostatic and bistatic nodes are drawn at random by
the position allocators and are given here as lists. -/
def mainAmbientDevices (sqrt : ℚ → ℚ)
    (activeDevices monostaticDevices bistaticDevices : List Vector) (uninit : Nat → ℚ) :
    List AmbientIoTDevice :=
  buildAmbientDevices sqrt (AmbientEnergySource.new.SetEnergyDensity 0.001)
    bsPositions cwPositions activeDevices monostaticDevices bistaticDevices uninit

/-! ### `CalculateHarvestRate` in binary64

Where the rounding of `double` arithmetic decides a statement, the method is
read over the values and operations of IEEE 754 binary64 themselves. -/

namespace Binary64

/-- A value of the C++ type `double`: a finite number, an infinity with its
sign, or a NaN. Zero carries no sign here. -/
inductive Double where
  | finite (value : ℚ)
  | inf (negative : Bool)
  | nan
  deriving DecidableEq

/-- Rounding to the nearest integer, ties to the even one. -/
def roundHalfEven (y : ℚ) : ℤ :=
  if y - ⌊y⌋ < 1 / 2 then ⌊y⌋
  else if 1 / 2 < y - ⌊y⌋ then ⌊y⌋ + 1
  else if ⌊y⌋ % 2 = 0 then ⌊y⌋ else ⌊y⌋ + 1

/-- The binary64 value of an exact result `x`, in the default rounding mode: `x`
is rounded to the nearest multiple of the unit in the last place of its binade
(53 significant bits, no exponent below `-1022`), ties to even, and the result
is an infinity when it lies beyond `DBL_MAX`. -/
def round64 (x : ℚ) : Double :=
  let e : ℤ := max (Int.log 2 |x|) (-1022)
  let ulp : ℚ := 2 ^ (e - 52)
  let r : ℚ := roundHalfEven (x / ulp) * ulp
  if DBL_MAX < |r| then Double.inf (decide (x < 0)) else Double.finite r

/-- The product `a * b` of two `double`s. -/
def Double.mul : Double → Double → Double
  | .nan, _ => .nan
  | _, .nan => .nan
  | .finite a, .finite b => round64 (a * b)
  | .finite a, .inf s => if a = 0 then .nan else .inf (xor s (decide (a < 0)))
  | .inf s, .finite b => if b = 0 then .nan else .inf (xor s (decide (b < 0)))
  | .inf s, .inf t => .inf (xor s t)

/-- The quotient `a / b` of two `double`s. A finite non-zero number over zero is
the infinity with the sign of the number. -/
def Double.div : Double → Double → Double
  | .nan, _ => .nan
  | _, .nan => .nan
  | .finite a, .finite b =>
    if b = 0 then (if a = 0 then .nan else .inf (decide (a < 0))) else round64 (a / b)
  | .finite _, .inf _ => .finite 0
  | .inf s, .finite b => .inf (xor s (decide (b < 0)))
  | .inf _, .inf _ => .nan

/-- The comparison `a <= b` of two `double`s: false when either is a NaN. -/
def Double.le : Double → Double → Bool
  | .nan, _ => false
  | _, .nan => false
  | .finite a, .finite b => decide (a ≤ b)
  | .inf true, _ => true
  | _, .inf false => true
  | .inf false, _ => false
  | .finite _, .inf true => false

/-- The member variable of `AmbientEnergySource`, as a `double`. -/
structure AmbientEnergySource where
  m_energyDensity : Double
  deriving DecidableEq

namespace AmbientEnergySource

/-- The constructor `AmbientEnergySource ()`: the literal `0.001` is the nearest
`double`. -/
def new : AmbientEnergySource := { m_energyDensity := round64 0.001 }

/-- The setter `SetEnergyDensity`. -/
def SetEnergyDensity (_s : AmbientEnergySource) (density : Double) : AmbientEnergySource :=
  { m_energyDensity := density }

/-- First statement of `CalculateHarvestRate`: the value of the local `distance`
after `if (distance <= 0.1) distance = 0.1;`, the literal `0.1` being the nearest
`double`. -/
def clampDistance (distance : Double) : Double :=
  if distance.le (round64 0.1) then round64 0.1 else distance

/-- The method `CalculateHarvestRate`, with the product and the quotient of
binary64. -/
def CalculateHarvestRate (s : AmbientEnergySource) (distance : Double) : Double :=
  let distance := clampDistance distance
  s.m_energyDensity.div (distance.mul distance)

end AmbientEnergySource

end Binary64

/-! ## Theorems -/

open AmbientIoTDevice

/-- C1: for a device of role `ACTIVE_DEVICE` (cost `c = 0.1`) or
`MONOSTATIC_BACKSCATTER` (cost `c = 0.01`), in every state and at every time,
`CanTransmit` returns true exactly when the stored energy after the accrual
step is at least `c`; when it returns true the stored energy ends exactly `c`
below the post-accrual value, and when it returns false it equals the
post-accrual value. -/
theorem canTransmit_threshold_cost (now : Time) (d : AmbientIoTDevice) (c : ℚ)
    (hrole : d.m_deviceType = ACTIVE_DEVICE ∧ c = 0.1 ∨
      d.m_deviceType = MONOSTATIC_BACKSCATTER ∧ c = 0.01) :
    ((d.CanTransmit now).1 = true ↔ (harvestUpdate now d).m_currentEnergy ≥ c) ∧
    ((d.CanTransmit now).1 = true →
      (d.CanTransmit now).2.m_currentEnergy = (harvestUpdate now d).m_currentEnergy - c) ∧
    ((d.CanTransmit now).1 = false →
      (d.CanTransmit now).2.m_currentEnergy = (harvestUpdate now d).m_currentEnergy) := by
  have htype : (harvestUpdate now d).m_deviceType = d.m_deviceType := by
    unfold harvestUpdate
    split <;> rfl
  rcases hrole with ⟨hr, hc⟩ | ⟨hr, hc⟩
  · subst hc
    by_cases hE : (harvestUpdate now d).m_currentEnergy ≥ 0.1
    · simp [CanTransmit, energySwitch, htype, hr, hE]
    · simp [CanTransmit, energySwitch, htype, hr, hE]
  · subst hc
    by_cases hE : (harvestUpdate now d).m_currentEnergy ≥ 0.01
    · simp [CanTransmit, energySwitch, htype, hr, hE]
    · simp [CanTransmit, energySwitch, htype, hr, hE]

/-- Witness of C1: an active device holding `1` J pays `0.1` and is left with `0.9`. -/
theorem canTransmit_threshold_cost_witness :
    ((deviceWith ACTIVE_DEVICE false 0 1 0 none).m_deviceType = ACTIVE_DEVICE ∧
        (0.1 : ℚ) = 0.1 ∨
      (deviceWith ACTIVE_DEVICE false 0 1 0 none).m_deviceType = MONOSTATIC_BACKSCATTER ∧
        (0.1 : ℚ) = 0.01) ∧
    ((deviceWith ACTIVE_DEVICE false 0 1 0 none).CanTransmit 5).1 = true ∧
    ((deviceWith ACTIVE_DEVICE false 0 1 0 none).CanTransmit 5).2.m_currentEnergy = 0.9 := by
  have h := canTransmit_threshold_cost 5 (deviceWith ACTIVE_DEVICE false 0 1 0 none) 0.1
    (Or.inl ⟨rfl, rfl⟩)
  have hE : (harvestUpdate 5 (deviceWith ACTIVE_DEVICE false 0 1 0 none)).m_currentEnergy = 1 := by
    simp [harvestUpdate, deviceWith]
  rw [hE] at h
  have hb : ((deviceWith ACTIVE_DEVICE false 0 1 0 none).CanTransmit 5).1 = true :=
    h.1.2 (by norm_num)
  refine ⟨Or.inl ⟨rfl, rfl⟩, hb, ?_⟩
  rw [h.2.1 hb]
  norm_num

/-! ### Shared facts about `CanTransmit` -/

theorem harvestUpdate_deviceType (now : Time) (d : AmbientIoTDevice) :
    (harvestUpdate now d).m_deviceType = d.m_deviceType := by
  unfold harvestUpdate
  split <;> rfl

theorem harvestUpdate_carrierSource (now : Time) (d : AmbientIoTDevice) :
    (harvestUpdate now d).m_carrierSource = d.m_carrierSource := by
  unfold harvestUpdate
  split <;> rfl

theorem harvestUpdate_disabled (now : Time) (d : AmbientIoTDevice)
    (h : d.m_hasEnergyHarvester = false) : harvestUpdate now d = d := by
  simp [harvestUpdate, h]

theorem canTransmit_carrier (now : Time) (d : AmbientIoTDevice)
    (h : d.m_deviceType = CARRIER_WAVE_SOURCE) :
    d.CanTransmit now = (true, harvestUpdate now d) := by
  have ht := harvestUpdate_deviceType now d
  rw [h] at ht
  simp [CanTransmit, energySwitch, ht]

theorem canTransmit_bistatic_enough (now : Time) (d : AmbientIoTDevice)
    (h : d.m_deviceType = BISTATIC_BACKSCATTER)
    (hE : (harvestUpdate now d).m_currentEnergy ≥ 0.01) :
    d.CanTransmit now = (true, { harvestUpdate now d with
      m_currentEnergy := (harvestUpdate now d).m_currentEnergy - 0.01 }) := by
  have ht := harvestUpdate_deviceType now d
  rw [h] at ht
  simp [CanTransmit, energySwitch, ht, hE]

theorem canTransmit_bistatic_short (now : Time) (d : AmbientIoTDevice)
    (h : d.m_deviceType = BISTATIC_BACKSCATTER)
    (hE : ¬ (harvestUpdate now d).m_currentEnergy ≥ 0.01) :
    d.CanTransmit now = (false, harvestUpdate now d) := by
  have ht := harvestUpdate_deviceType now d
  rw [h] at ht
  simp [CanTransmit, energySwitch, ht, hE]

theorem canTransmit_false_energy (now : Time) (d : AmbientIoTDevice)
    (h : (d.CanTransmit now).1 = false) :
    (d.CanTransmit now).2 = harvestUpdate now d := by
  unfold CanTransmit at h ⊢
  generalize harvestUpdate now d = e at h ⊢
  cases ht : e.m_deviceType <;> simp only [energySwitch, ht] at h ⊢
  · by_cases hE : e.m_currentEnergy ≥ 0.1 <;> simp [hE] at h ⊢
  · by_cases hE : e.m_currentEnergy ≥ 0.01 <;> simp [hE] at h ⊢
  · by_cases hE : e.m_currentEnergy ≥ 0.01 <;> simp [hE] at h ⊢

theorem lt_length_of_getElem? {α : Type} (l : List α) (k : Nat) (a : α)
    (h : l[k]? = some a) : k < l.length := by
  by_contra hk
  rw [List.getElem?_eq_none (Nat.le_of_not_lt hk)] at h
  exact Option.noConfusion h

/-- C2: for a `BISTATIC_BACKSCATTER` device bound to a carrier of role
`CARRIER_WAVE_SOURCE`, the scheduled check
`device->CanTransmit() && carrier->CanTransmit()` completes, and its flag is
true exactly when the post-accrual stored energy of the device is at least
`0.01`; when true the device ends exactly `0.01` below its post-accrual energy
and the carrier ends with its own post-accrual energy (its whole state is
unchanged when its harvester is off); when false the device keeps its
post-accrual energy and the carrier object is untouched. -/
theorem bistaticEvent_with_carrier_source (now : Time) (devs : List AmbientIoTDevice)
    (i c : Nat) (dev car : AmbientIoTDevice)
    (hdev : devs[i]? = some dev) (hrole : dev.m_deviceType = BISTATIC_BACKSCATTER)
    (hbound : dev.m_carrierSource = some c)
    (hcar : devs[c]? = some car) (hcrole : car.m_deviceType = CARRIER_WAVE_SOURCE) :
    ∃ b devs1, bistaticEvent now i devs = some (b, devs1) ∧
      (b = true ↔ (harvestUpdate now dev).m_currentEnergy ≥ 0.01) ∧
      (b = true →
        energyAt devs1 i = some ((harvestUpdate now dev).m_currentEnergy - 0.01) ∧
        energyAt devs1 c = some (harvestUpdate now car).m_currentEnergy ∧
        (car.m_hasEnergyHarvester = false → devs1[c]? = some car)) ∧
      (b = false →
        energyAt devs1 i = some (harvestUpdate now dev).m_currentEnergy ∧
        devs1[c]? = some car) := by
  have hi : i < devs.length := lt_length_of_getElem? devs i dev hdev
  have hc : c < devs.length := lt_length_of_getElem? devs c car hcar
  have hne : i ≠ c := by
    intro h
    subst h
    rw [hdev] at hcar
    cases hcar
    rw [hrole] at hcrole
    cases hcrole
  by_cases hE : (harvestUpdate now dev).m_currentEnergy ≥ 0.01
  · refine ⟨true, (devs.set i (dev.CanTransmit now).2).set c (harvestUpdate now car), ?_, ?_, ?_, ?_⟩
    · simp [bistaticEvent, callCanTransmit, hdev, canTransmit_bistatic_enough now dev hrole hE,
        hi, GetCarrierWaveSource, harvestUpdate_carrierSource, hbound,
        List.getElem?_set_ne hne, hcar, canTransmit_carrier now car hcrole]
    · simp [hE]
    · intro _
      refine ⟨?_, ?_, ?_⟩
      · simp [energyAt, List.getElem?_set_ne (Ne.symm hne), hi,
          canTransmit_bistatic_enough now dev hrole hE]
      · simp [energyAt, hc]
      · intro hoff
        simp [hc, harvestUpdate_disabled now car hoff]
    · intro h
      cases h
  · refine ⟨false, devs.set i (harvestUpdate now dev), ?_, ?_, ?_, ?_⟩
    · simp [bistaticEvent, callCanTransmit, hdev, canTransmit_bistatic_short now dev hrole hE]
    · simp [hE]
    · intro h
      cases h
    · intro _
      refine ⟨?_, ?_⟩
      · simp [energyAt, hi]
      · simp [List.getElem?_set_ne hne, hcar]

/-- Witness of C2 (no accrual): stored energy `0.02` gives true and leaves `0.01`;
stored energy `0.005` gives false and leaves `0.005`. -/
theorem bistaticEvent_with_carrier_source_witness :
    (bistaticEvent 0 0
        [deviceWith BISTATIC_BACKSCATTER false 0 0.02 0 (some 1),
         deviceWith CARRIER_WAVE_SOURCE false 0 0 0 none]
      = some (true,
        [deviceWith BISTATIC_BACKSCATTER false 0 0.01 0 (some 1),
         deviceWith CARRIER_WAVE_SOURCE false 0 0 0 none])) ∧
    (bistaticEvent 0 0
        [deviceWith BISTATIC_BACKSCATTER false 0 0.005 0 (some 1),
         deviceWith CARRIER_WAVE_SOURCE false 0 0 0 none]
      = some (false,
        [deviceWith BISTATIC_BACKSCATTER false 0 0.005 0 (some 1),
         deviceWith CARRIER_WAVE_SOURCE false 0 0 0 none])) ∧
    (∃ b devs1, bistaticEvent 0 0
        [deviceWith BISTATIC_BACKSCATTER false 0 0.02 0 (some 1),
         deviceWith CARRIER_WAVE_SOURCE false 0 0 0 none] = some (b, devs1) ∧
      (b = true ↔ (harvestUpdate 0
        (deviceWith BISTATIC_BACKSCATTER false 0 0.02 0 (some 1))).m_currentEnergy ≥ 0.01) ∧
      (b = true →
        energyAt devs1 0 = some ((harvestUpdate 0
          (deviceWith BISTATIC_BACKSCATTER false 0 0.02 0 (some 1))).m_currentEnergy - 0.01) ∧
        energyAt devs1 1 = some (harvestUpdate 0
          (deviceWith CARRIER_WAVE_SOURCE false 0 0 0 none)).m_currentEnergy ∧
        ((deviceWith CARRIER_WAVE_SOURCE false 0 0 0 none).m_hasEnergyHarvester = false →
          devs1[1]? = some (deviceWith CARRIER_WAVE_SOURCE false 0 0 0 none))) ∧
      (b = false →
        energyAt devs1 0 = some (harvestUpdate 0
          (deviceWith BISTATIC_BACKSCATTER false 0 0.02 0 (some 1))).m_currentEnergy ∧
        devs1[1]? = some (deviceWith CARRIER_WAVE_SOURCE false 0 0 0 none))) := by
  refine ⟨?_, ?_, bistaticEvent_with_carrier_source 0 _ 0 1 _ _ rfl rfl rfl rfl rfl⟩
  · norm_num [bistaticEvent, callCanTransmit, CanTransmit, energySwitch, harvestUpdate,
      deviceWith, AmbientIoTDevice.new, GetCarrierWaveSource]
  · norm_num [bistaticEvent, callCanTransmit, CanTransmit, energySwitch, harvestUpdate,
      deviceWith, AmbientIoTDevice.new, GetCarrierWaveSource]

/-- C3, as stated, fails: a bistatic device holding `0.02` J is bound to a device
whose own check returns false (an active device holding nothing). The scheduled
check returns false, the carrier's check did return false, and yet the bistatic
device has been deducted `0.01`: it ends at `0.01`, not at its post-accrual
`0.02`. -/
theorem bistaticEvent_deducts_before_carrier_counterexample :
    ((deviceWith ACTIVE_DEVICE false 0 0 0 none).CanTransmit 0).1 = false ∧
    bistaticEvent 0 0
        [deviceWith BISTATIC_BACKSCATTER false 0 0.02 0 (some 1),
         deviceWith ACTIVE_DEVICE false 0 0 0 none]
      = some (false,
        [deviceWith BISTATIC_BACKSCATTER false 0 0.01 0 (some 1),
         deviceWith ACTIVE_DEVICE false 0 0 0 none]) ∧
    energyAt
        [deviceWith BISTATIC_BACKSCATTER false 0 0.01 0 (some 1),
         deviceWith ACTIVE_DEVICE false 0 0 0 none] 0
      ≠ some (harvestUpdate 0
          (deviceWith BISTATIC_BACKSCATTER false 0 0.02 0 (some 1))).m_currentEnergy := by
  refine ⟨?_, ?_, ?_⟩
  · norm_num [CanTransmit, energySwitch, harvestUpdate, deviceWith, AmbientIoTDevice.new]
  · norm_num [bistaticEvent, callCanTransmit, CanTransmit, energySwitch, harvestUpdate,
      deviceWith, AmbientIoTDevice.new, GetCarrierWaveSource]
  · norm_num [energyAt, harvestUpdate, deviceWith, AmbientIoTDevice.new]

/-- C3, amended: for a `BISTATIC_BACKSCATTER` device bound to any device as its
carrier, (a) if the device's own post-accrual energy is below `0.01` the
scheduled check returns false, the carrier is not checked, and the only change
is the accrual on the device: nothing is deducted from either; (b) if the
device's own check succeeded and the carrier's check, run next, returns false,
the scheduled check returns false and the carrier keeps its post-accrual
energy, while the bistatic device has paid `0.01`. -/
theorem bistaticEvent_failure (now : Time) (devs : List AmbientIoTDevice) (i c : Nat)
    (dev : AmbientIoTDevice)
    (hdev : devs[i]? = some dev) (hrole : dev.m_deviceType = BISTATIC_BACKSCATTER)
    (hbound : dev.m_carrierSource = some c) :
    (¬ (harvestUpdate now dev).m_currentEnergy ≥ 0.01 →
      bistaticEvent now i devs = some (false, devs.set i (harvestUpdate now dev))) ∧
    (∀ devs1 car1, callCanTransmit now i devs = some (true, devs1) →
      devs1[c]? = some car1 → (car1.CanTransmit now).1 = false →
      ∃ devs2, bistaticEvent now i devs = some (false, devs2) ∧
        energyAt devs2 i = some ((harvestUpdate now dev).m_currentEnergy - 0.01) ∧
        energyAt devs2 c = some (harvestUpdate now car1).m_currentEnergy) := by
  have hi : i < devs.length := lt_length_of_getElem? devs i dev hdev
  refine ⟨?_, ?_⟩
  · intro hE
    simp [bistaticEvent, callCanTransmit, hdev, canTransmit_bistatic_short now dev hrole hE]
  · intro devs1 car1 hcall hcar hfail
    by_cases hE : (harvestUpdate now dev).m_currentEnergy ≥ 0.01
    · have hpaid := canTransmit_bistatic_enough now dev hrole hE
      simp only [callCanTransmit, hdev, hpaid, Option.some.injEq, Prod.mk.injEq, true_and]
        at hcall
      have hc : c < devs1.length := lt_length_of_getElem? devs1 c car1 hcar
      have hi1 : i < devs1.length := by
        rw [← hcall]
        simpa using hi
      have hdev1 : devs1[i]? = some { harvestUpdate now dev with
          m_currentEnergy := (harvestUpdate now dev).m_currentEnergy - 0.01 } := by
        rw [← hcall]
        simp [hi]
      have hev : bistaticEvent now i devs
          = some (false, devs1.set c (harvestUpdate now car1)) := by
        have hcall2 : callCanTransmit now i devs = some (true, devs1) := by
          simp [callCanTransmit, hdev, hpaid, hcall]
        have hc2 : callCanTransmit now c devs1
            = some (false, devs1.set c (harvestUpdate now car1)) := by
          simp [callCanTransmit, hcar, hfail, canTransmit_false_energy now car1 hfail]
        simp [bistaticEvent, hcall2, hdev1, GetCarrierWaveSource,
          harvestUpdate_carrierSource, hbound, hc2]
      refine ⟨_, hev, ?_, ?_⟩
      · by_cases hne : c = i
        · subst hne
          rw [hdev1] at hcar
          cases hcar
          simp only [energyAt, List.getElem?_set_self hc, Option.map_some']
          unfold harvestUpdate
          by_cases hh : dev.m_hasEnergyHarvester = true
          · simp [hh, Time.GetSeconds]
          · simp [hh]
        · simp [energyAt, List.getElem?_set_ne hne, hdev1]
      · simp [energyAt, hc]
    · have hshort := canTransmit_bistatic_short now dev hrole hE
      simp [callCanTransmit, hdev, hshort] at hcall

/-- Witness of the amended C3: the bistatic device holds `0.02` J, its bound
carrier is an active device holding nothing; the device ends with `0.01`. -/
theorem bistaticEvent_failure_witness :
    (∃ devs2, bistaticEvent 0 0
        [deviceWith BISTATIC_BACKSCATTER false 0 0.02 0 (some 1),
         deviceWith ACTIVE_DEVICE false 0 0 0 none] = some (false, devs2) ∧
      energyAt devs2 0 = some ((harvestUpdate 0
        (deviceWith BISTATIC_BACKSCATTER false 0 0.02 0 (some 1))).m_currentEnergy - 0.01) ∧
      energyAt devs2 1 = some (harvestUpdate 0
        (deviceWith ACTIVE_DEVICE false 0 0 0 none)).m_currentEnergy) ∧
    (bistaticEvent 0 0
        [deviceWith BISTATIC_BACKSCATTER false 0 0.005 0 (some 1),
         deviceWith ACTIVE_DEVICE false 0 0 0 none]
      = some (false, [deviceWith BISTATIC_BACKSCATTER false 0 0.005 0 (some 1),
         deviceWith ACTIVE_DEVICE false 0 0 0 none].set 0 (harvestUpdate 0
          (deviceWith BISTATIC_BACKSCATTER false 0 0.005 0 (some 1))))) := by
  refine ⟨?_, ?_⟩
  · exact (bistaticEvent_failure 0
      [deviceWith BISTATIC_BACKSCATTER false 0 0.02 0 (some 1),
       deviceWith ACTIVE_DEVICE false 0 0 0 none] 0 1
      (deviceWith BISTATIC_BACKSCATTER false 0 0.02 0 (some 1)) rfl rfl rfl).2
      [deviceWith BISTATIC_BACKSCATTER false 0 0.01 0 (some 1),
       deviceWith ACTIVE_DEVICE false 0 0 0 none]
      (deviceWith ACTIVE_DEVICE false 0 0 0 none)
      (by norm_num [callCanTransmit, CanTransmit, energySwitch, harvestUpdate,
        deviceWith, AmbientIoTDevice.new])
      rfl
      (by norm_num [CanTransmit, energySwitch, harvestUpdate, deviceWith,
        AmbientIoTDevice.new])
  · exact (bistaticEvent_failure 0
      [deviceWith BISTATIC_BACKSCATTER false 0 0.005 0 (some 1),
       deviceWith ACTIVE_DEVICE false 0 0 0 none] 0 1
      (deviceWith BISTATIC_BACKSCATTER false 0 0.005 0 (some 1)) rfl rfl rfl).1
      (by norm_num [harvestUpdate, deviceWith, AmbientIoTDevice.new])

/-- C4: the accrual step of `CanTransmit`. With the harvester enabled, the role
rule is applied to the device whose stored energy is
`oldEnergy + harvestRate * (now - lastHarvestTime)` and whose `lastHarvestTime`
is `now`, and `lastHarvestTime` is `now` when the call returns; with the
harvester disabled the role rule is applied to the unchanged device, and
`lastHarvestTime` is unchanged when the call returns. -/
theorem canTransmit_accrual (now : Time) (d : AmbientIoTDevice) :
    (d.m_hasEnergyHarvester = true →
      d.CanTransmit now = energySwitch { d with
        m_currentEnergy := d.m_currentEnergy + d.m_harvestRate * (now - d.m_lastHarvestTime)
        m_lastHarvestTime := now } ∧
      (d.CanTransmit now).2.m_lastHarvestTime = now) ∧
    (d.m_hasEnergyHarvester = false →
      d.CanTransmit now = energySwitch d ∧
      (d.CanTransmit now).2.m_lastHarvestTime = d.m_lastHarvestTime) := by
  have hlast : ∀ e : AmbientIoTDevice,
      (energySwitch e).2.m_lastHarvestTime = e.m_lastHarvestTime := by
    intro e
    unfold energySwitch
    split <;> (try split) <;> rfl
  refine ⟨?_, ?_⟩
  · intro h
    have hu : harvestUpdate now d = { d with
        m_currentEnergy := d.m_currentEnergy + d.m_harvestRate * (now - d.m_lastHarvestTime)
        m_lastHarvestTime := now } := by
      simp [harvestUpdate, h, Time.GetSeconds]
    refine ⟨?_, ?_⟩
    · rw [CanTransmit, hu]
    · rw [CanTransmit, hu, hlast]
  · intro h
    have hu : harvestUpdate now d = d := harvestUpdate_disabled now d h
    refine ⟨?_, ?_⟩
    · rw [CanTransmit, hu]
    · rw [CanTransmit, hu, hlast]

/-- Witness of C4: a monostatic device harvesting `1/100` J/s since time `2`,
holding `0.005` J, checked at time `3`: the energy becomes `0.015`, the check
succeeds and leaves `0.005`, and `lastHarvestTime` is `3`. -/
theorem canTransmit_accrual_witness :
    (deviceWith MONOSTATIC_BACKSCATTER true 0.01 0.005 2 none).CanTransmit 3
      = (true, deviceWith MONOSTATIC_BACKSCATTER true 0.01 0.005 3 none) ∧
    ((deviceWith MONOSTATIC_BACKSCATTER true 0.01 0.005 2 none).CanTransmit 3).2.m_lastHarvestTime
      = 3 := by
  have h := (canTransmit_accrual 3 (deviceWith MONOSTATIC_BACKSCATTER true 0.01 0.005 2 none)).1
    rfl
  refine ⟨?_, h.2⟩
  rw [h.1]
  norm_num [energySwitch, deviceWith, AmbientIoTDevice.new]

/-- C5, as stated, fails: a carrier source whose harvester is enabled at rate
`1` J/s, holding nothing at time `0`, holds `1` J after a check at time `1`. -/
theorem canTransmit_carrier_accrues_counterexample :
    (deviceWith CARRIER_WAVE_SOURCE true 1 0 0 none).m_deviceType = CARRIER_WAVE_SOURCE ∧
    ((deviceWith CARRIER_WAVE_SOURCE true 1 0 0 none).CanTransmit 1).2.m_currentEnergy
      ≠ (deviceWith CARRIER_WAVE_SOURCE true 1 0 0 none).m_currentEnergy := by
  refine ⟨rfl, ?_⟩
  norm_num [CanTransmit, energySwitch, harvestUpdate, deviceWith, AmbientIoTDevice.new,
    Time.GetSeconds]

/-- C5, amended: for a device of role `CARRIER_WAVE_SOURCE`, in every state and
at every time, `CanTransmit` returns true and pays nothing: the stored energy
it leaves is the post-accrual one. With the harvester disabled, the state of
every carrier source that `main` builds, the device is left unchanged; with the
harvester enabled the stored energy becomes
`oldEnergy + harvestRate * (now - lastHarvestTime)`. -/
theorem canTransmit_carrier_source (now : Time) (d : AmbientIoTDevice)
    (hrole : d.m_deviceType = CARRIER_WAVE_SOURCE) :
    (d.CanTransmit now).1 = true ∧
    (d.CanTransmit now).2.m_currentEnergy = (harvestUpdate now d).m_currentEnergy ∧
    (d.m_hasEnergyHarvester = false → (d.CanTransmit now).2 = d) ∧
    (d.m_hasEnergyHarvester = true → (d.CanTransmit now).2.m_currentEnergy
      = d.m_currentEnergy + d.m_harvestRate * (now - d.m_lastHarvestTime)) ∧
    (∀ node uninit, (setupCarrierSource node uninit).m_deviceType = CARRIER_WAVE_SOURCE ∧
      (setupCarrierSource node uninit).m_hasEnergyHarvester = false) := by
  rw [canTransmit_carrier now d hrole]
  refine ⟨rfl, rfl, ?_, ?_, ?_⟩
  · intro h
    exact harvestUpdate_disabled now d h
  · intro h
    simp [harvestUpdate, h, Time.GetSeconds]
  · intro node uninit
    exact ⟨rfl, rfl⟩

/-- Witness of the amended C5: the first carrier source built by `main`, checked
at time `10`, returns true and is left as built. -/
theorem canTransmit_carrier_source_witness :
    (setupCarrierSource 0 0).m_deviceType = CARRIER_WAVE_SOURCE ∧
    ((setupCarrierSource 0 0).CanTransmit 10).1 = true ∧
    ((setupCarrierSource 0 0).CanTransmit 10).2 = setupCarrierSource 0 0 :=
  ⟨rfl, (canTransmit_carrier_source 10 (setupCarrierSource 0 0) rfl).1,
    (canTransmit_carrier_source 10 (setupCarrierSource 0 0) rfl).2.2.1 rfl⟩

/-! ### The harvest model -/

theorem clampDistance_eq_max (distance : ℚ) :
    AmbientEnergySource.clampDistance distance = max distance 0.1 := by
  unfold AmbientEnergySource.clampDistance
  by_cases h : distance ≤ 0.1
  · rw [if_pos h, max_eq_right h]
  · rw [if_neg h, max_eq_left (le_of_lt (lt_of_not_ge h))]

/-- C7, as stated, fails: `SetEnergyDensity` accepts the density `-1`, and with
it the rate at distance `1` is `-1`, below the rate `-1/4` at distance `2`. -/
theorem calculateHarvestRate_negative_density_counterexample :
    (0.1 : ℚ) ≤ 1 ∧ (1 : ℚ) ≤ 2 ∧
    (AmbientEnergySource.new.SetEnergyDensity (-1)).m_energyDensity = -1 ∧
    ¬ ((AmbientEnergySource.new.SetEnergyDensity (-1)).CalculateHarvestRate 1
      ≥ (AmbientEnergySource.new.SetEnergyDensity (-1)).CalculateHarvestRate 2) := by
  refine ⟨by norm_num, by norm_num, rfl, ?_⟩
  norm_num [AmbientEnergySource.CalculateHarvestRate, AmbientEnergySource.clampDistance,
    AmbientEnergySource.SetEnergyDensity]

/-- C7, amended: for every fixed density `>= 0` given to `SetEnergyDensity` and
all distances `d1 <= d2` with both `>= 0.1`,
`CalculateHarvestRate (d1) >= CalculateHarvestRate (d2)`. -/
theorem calculateHarvestRate_antitone (s : AmbientEnergySource) (density d1 d2 : ℚ)
    (hdensity : 0 ≤ density) (h1 : 0.1 ≤ d1) (h12 : d1 ≤ d2) :
    (s.SetEnergyDensity density).CalculateHarvestRate d1
      ≥ (s.SetEnergyDensity density).CalculateHarvestRate d2 := by
  have hc : ∀ d : ℚ, 0.1 ≤ d → AmbientEnergySource.clampDistance d = d := by
    intro d hd
    rw [clampDistance_eq_max, max_eq_left hd]
  have hpos : (0 : ℚ) < d1 := lt_of_lt_of_le (by norm_num) h1
  simp only [AmbientEnergySource.CalculateHarvestRate, AmbientEnergySource.SetEnergyDensity,
    hc d1 h1, hc d2 (le_trans h1 h12), ge_iff_le]
  exact div_le_div_of_nonneg_left hdensity (mul_pos hpos hpos)
    (mul_le_mul h12 h12 (le_of_lt hpos) (le_trans (le_of_lt hpos) h12))

/-- Witness of the amended C7: the density of `main`, distances `1` and `2`. -/
theorem calculateHarvestRate_antitone_witness :
    (0 : ℚ) ≤ 0.001 ∧ (0.1 : ℚ) ≤ 1 ∧ (1 : ℚ) ≤ 2 ∧
    (AmbientEnergySource.new.SetEnergyDensity 0.001).CalculateHarvestRate 1
      ≥ (AmbientEnergySource.new.SetEnergyDensity 0.001).CalculateHarvestRate 2 :=
  ⟨by norm_num, by norm_num, by norm_num,
    calculateHarvestRate_antitone AmbientEnergySource.new 0.001 1 2
      (by norm_num) (by norm_num) (by norm_num)⟩

/-! ### The nearest-neighbour scan -/

/-- What the scan loop computes from index `j` on: either no candidate left
improves on the running minimum and the loop state is returned as it was, or
the state is the first of the closest candidates left, strictly closer than
the running minimum. -/
theorem scanFrom_spec (sqrt : ℚ → ℚ) (devicePos : Vector) (rest : List Vector) :
    ∀ (j : Nat) (st : ℚ × Option Nat),
      (scanFrom sqrt devicePos rest j st = st ∧
        ∀ p ∈ rest, st.1 ≤ CalcDistance sqrt devicePos p) ∨
      (∃ k q, rest[k]? = some q ∧
        scanFrom sqrt devicePos rest j st = (CalcDistance sqrt devicePos q, some (j + k)) ∧
        CalcDistance sqrt devicePos q < st.1 ∧
        ∀ k1 q1, rest[k1]? = some q1 →
          CalcDistance sqrt devicePos q ≤ CalcDistance sqrt devicePos q1 ∧
          (k1 < k → CalcDistance sqrt devicePos q < CalcDistance sqrt devicePos q1)) := by
  induction rest with
  | nil =>
    intro j st
    left
    exact ⟨rfl, by simp⟩
  | cons p rest ih =>
    intro j st
    by_cases hlt : CalcDistance sqrt devicePos p < st.1
    · have hstep : scanFrom sqrt devicePos (p :: rest) j st
          = scanFrom sqrt devicePos rest (j + 1) (CalcDistance sqrt devicePos p, some j) := by
        simp [scanFrom, hlt]
      right
      rcases ih (j + 1) (CalcDistance sqrt devicePos p, some j) with ⟨heq, hall⟩ | hbetter
      · refine ⟨0, p, List.getElem?_cons_zero, ?_, hlt, ?_⟩
        · rw [hstep, heq]
          rfl
        · intro k1 q1 hk1
          cases k1 with
          | zero =>
            simp only [List.getElem?_cons_zero, Option.some.injEq] at hk1
            subst hk1
            exact ⟨le_rfl, fun h => absurd h (Nat.lt_irrefl 0)⟩
          | succ k1 =>
            simp only [List.getElem?_cons_succ] at hk1
            exact ⟨hall q1 (List.getElem?_mem hk1), fun h => absurd h (Nat.not_lt_zero _)⟩
      · obtain ⟨k, q, hk, hres, hq, hmin⟩ := hbetter
        refine ⟨k + 1, q, by simpa using hk, ?_, lt_trans hq hlt, ?_⟩
        · rw [hstep, hres, Nat.add_assoc, Nat.add_comm 1 k]
        · intro k1 q1 hk1
          cases k1 with
          | zero =>
            simp only [List.getElem?_cons_zero, Option.some.injEq] at hk1
            subst hk1
            exact ⟨le_of_lt hq, fun _ => hq⟩
          | succ k1 =>
            simp only [List.getElem?_cons_succ] at hk1
            exact ⟨(hmin k1 q1 hk1).1, fun h => (hmin k1 q1 hk1).2 (Nat.lt_of_succ_lt_succ h)⟩
    · have hstep : scanFrom sqrt devicePos (p :: rest) j st
          = scanFrom sqrt devicePos rest (j + 1) st := by
        simp [scanFrom, hlt]
      have hle : st.1 ≤ CalcDistance sqrt devicePos p := le_of_not_lt hlt
      rcases ih (j + 1) st with ⟨heq, hall⟩ | hbetter
      · left
        refine ⟨by rw [hstep, heq], ?_⟩
        intro q hq
        rcases List.mem_cons.mp hq with h | h
        · rw [h]
          exact hle
        · exact hall q h
      · right
        obtain ⟨k, q, hk, hres, hq, hmin⟩ := hbetter
        refine ⟨k + 1, q, by simpa using hk, ?_, hq, ?_⟩
        · rw [hstep, hres, Nat.add_assoc, Nat.add_comm 1 k]
        · intro k1 q1 hk1
          cases k1 with
          | zero =>
            simp only [List.getElem?_cons_zero, Option.some.injEq] at hk1
            subst hk1
            exact ⟨le_of_lt (lt_of_lt_of_le hq hle), fun _ => lt_of_lt_of_le hq hle⟩
          | succ k1 =>
            simp only [List.getElem?_cons_succ] at hk1
            exact ⟨(hmin k1 q1 hk1).1, fun h => (hmin k1 q1 hk1).2 (Nat.lt_of_succ_lt_succ h)⟩

/-- C8: for every device position and every non-empty sequence of candidate
positions whose distances are below the initial `DBL_MAX`, the scan returns
the index `k` of a candidate together with exactly its `CalcDistance`; no
candidate is strictly closer, and every candidate as close sits at an index
`>= k`: the first of the closest candidates wins. -/
theorem nearestScan_first_closest (sqrt : ℚ → ℚ) (devicePos : Vector)
    (positions : List Vector) (hne : positions ≠ [])
    (hbelow : ∀ p ∈ positions, CalcDistance sqrt devicePos p < DBL_MAX) :
    ∃ k bsPos, positions[k]? = some bsPos ∧
      nearestScan sqrt devicePos positions = (CalcDistance sqrt devicePos bsPos, some k) ∧
      ∀ k1 p1, positions[k1]? = some p1 →
        CalcDistance sqrt devicePos bsPos ≤ CalcDistance sqrt devicePos p1 ∧
        (CalcDistance sqrt devicePos p1 = CalcDistance sqrt devicePos bsPos → k ≤ k1) := by
  rcases scanFrom_spec sqrt devicePos positions 0 (DBL_MAX, none) with ⟨_, hall⟩ | hbetter
  · exfalso
    cases positions with
    | nil => exact hne rfl
    | cons p rest =>
      have h1 := hall p (List.mem_cons_self p rest)
      have h2 := hbelow p (List.mem_cons_self p rest)
      exact absurd h2 (not_lt_of_le h1)
  · obtain ⟨k, q, hk, hres, _, hmin⟩ := hbetter
    refine ⟨k, q, hk, ?_, ?_⟩
    · rw [nearestScan, hres, Nat.zero_add]
    · intro k1 p1 hk1
      refine ⟨(hmin k1 p1 hk1).1, ?_⟩
      intro heq
      by_contra hlt
      have := (hmin k1 p1 hk1).2 (Nat.lt_of_not_le hlt)
      rw [heq] at this
      exact lt_irrefl _ this

theorem sqrtExact_natCast_sq (n : ℕ) : sqrtExact ((n * n : ℕ) : ℚ) = n := by
  unfold sqrtExact
  rw [Rat.num_natCast, Rat.den_natCast, Int.toNat_natCast, Nat.sqrt_eq, Nat.sqrt_one]
  simp

/-- Witness of C8: the candidates lie at distances `50`, `10` and `30` from the
device; the scan returns the second one (index `1`) with distance `10`. -/
theorem nearestScan_first_closest_witness :
    CalcDistance sqrtExact ⟨0, 0, 0⟩ ⟨50, 0, 0⟩ = 50 ∧
    CalcDistance sqrtExact ⟨0, 0, 0⟩ ⟨10, 0, 0⟩ = 10 ∧
    CalcDistance sqrtExact ⟨0, 0, 0⟩ ⟨30, 0, 0⟩ = 30 ∧
    nearestScan sqrtExact ⟨0, 0, 0⟩ [⟨50, 0, 0⟩, ⟨10, 0, 0⟩, ⟨30, 0, 0⟩] = (10, some 1) ∧
    ∃ k bsPos, ([⟨50, 0, 0⟩, ⟨10, 0, 0⟩, ⟨30, 0, 0⟩] : List Vector)[k]? = some bsPos ∧
      nearestScan sqrtExact ⟨0, 0, 0⟩ [⟨50, 0, 0⟩, ⟨10, 0, 0⟩, ⟨30, 0, 0⟩]
        = (CalcDistance sqrtExact ⟨0, 0, 0⟩ bsPos, some k) ∧
      ∀ k1 p1, ([⟨50, 0, 0⟩, ⟨10, 0, 0⟩, ⟨30, 0, 0⟩] : List Vector)[k1]? = some p1 →
        CalcDistance sqrtExact ⟨0, 0, 0⟩ bsPos ≤ CalcDistance sqrtExact ⟨0, 0, 0⟩ p1 ∧
        (CalcDistance sqrtExact ⟨0, 0, 0⟩ p1 = CalcDistance sqrtExact ⟨0, 0, 0⟩ bsPos →
          k ≤ k1) := by
  have h50 : CalcDistance sqrtExact ⟨0, 0, 0⟩ ⟨50, 0, 0⟩ = 50 := by
    have h := sqrtExact_natCast_sq 50
    norm_num at h
    norm_num [CalcDistance, h]
  have h10 : CalcDistance sqrtExact ⟨0, 0, 0⟩ ⟨10, 0, 0⟩ = 10 := by
    have h := sqrtExact_natCast_sq 10
    norm_num at h
    norm_num [CalcDistance, h]
  have h30 : CalcDistance sqrtExact ⟨0, 0, 0⟩ ⟨30, 0, 0⟩ = 30 := by
    have h := sqrtExact_natCast_sq 30
    norm_num at h
    norm_num [CalcDistance, h]
  refine ⟨h50, h10, h30, ?_, ?_⟩
  · norm_num [nearestScan, scanFrom, h50, h10, h30, DBL_MAX]
  · refine nearestScan_first_closest sqrtExact ⟨0, 0, 0⟩ _ (by simp) ?_
    intro p hp
    simp only [List.mem_cons, List.mem_singleton, List.not_mem_nil, or_false] at hp
    rcases hp with h | h | h <;> subst h
    · rw [h50]
      norm_num [DBL_MAX]
    · rw [h10]
      norm_num [DBL_MAX]
    · rw [h30]
      norm_num [DBL_MAX]

/-- C9, as stated, fails: run with no reader at all, the scan raises nothing; it
yields the null candidate with the sentinel distance `DBL_MAX`, the active device
is constructed with a null reader, and a bistatic device set up with no carrier
source is constructed with a null carrier. -/
theorem nearestScan_no_candidates_counterexample :
    nearestScan sqrtExact ⟨0, 0, 0⟩ [] = (DBL_MAX, none) ∧
    (setupActiveDevice sqrtExact AmbientEnergySource.new [] 0 ⟨0, 0, 0⟩ 0).m_readerNode
      = none ∧
    (setupBistaticDevice sqrtExact AmbientEnergySource.new [⟨0, 0, 30⟩] [] 0
      ⟨0, 0, 0⟩ 0).m_carrierSource = none :=
  ⟨rfl, rfl, rfl⟩

/-- C9, amended: run with zero candidates the scan does not fail. It yields the
null candidate and the sentinel distance `DBL_MAX`, and the device is
constructed all the same, with a null reader (an active, a monostatic or a
bistatic device set up with no reader) or a null carrier (a bistatic device set
up with no carrier source). -/
theorem nearestScan_no_candidates (sqrt : ℚ → ℚ) (ambientSource : AmbientEnergySource)
    (baseStations carrierWaveSources : List Vector) (node : Nat) (devicePos : Vector)
    (uninit : ℚ) :
    nearestScan sqrt devicePos [] = (DBL_MAX, none) ∧
    (setupActiveDevice sqrt ambientSource [] node devicePos uninit).m_readerNode = none ∧
    (setupMonostaticDevice sqrt ambientSource [] node devicePos uninit).m_readerNode = none ∧
    (setupBistaticDevice sqrt ambientSource [] carrierWaveSources node devicePos
      uninit).m_readerNode = none ∧
    (setupBistaticDevice sqrt ambientSource baseStations [] node devicePos
      uninit).m_carrierSource = none := by
  have hscan : nearestScan sqrt devicePos [] = (DBL_MAX, none) := by
    unfold nearestScan scanFrom
    rfl
  refine ⟨hscan, ?_, ?_, ?_, ?_⟩
  · show (nearestScan sqrt devicePos []).2 = none
    rw [hscan]
  · show (nearestScan sqrt devicePos []).2 = none
    rw [hscan]
  · show (nearestScan sqrt devicePos []).2 = none
    rw [hscan]
  · show (nearestScan sqrt devicePos []).2 = none
    rw [hscan]

/-! ### The stored energy along a run of checks -/

theorem energySwitch_fields (e : AmbientIoTDevice) :
    (energySwitch e).2.m_harvestRate = e.m_harvestRate ∧
    (energySwitch e).2.m_lastHarvestTime = e.m_lastHarvestTime ∧
    (energySwitch e).2.m_hasEnergyHarvester = e.m_hasEnergyHarvester ∧
    (energySwitch e).2.m_deviceType = e.m_deviceType := by
  unfold energySwitch
  split <;> (try split) <;> exact ⟨rfl, rfl, rfl, rfl⟩

theorem energySwitch_nonneg (e : AmbientIoTDevice) (h : 0 ≤ e.m_currentEnergy) :
    0 ≤ (energySwitch e).2.m_currentEnergy := by
  unfold energySwitch
  split
  · split
    · rename_i hE
      exact sub_nonneg.mpr hE
    · exact h
  · split
    · rename_i hE
      exact sub_nonneg.mpr hE
    · exact h
  · split
    · rename_i hE
      exact sub_nonneg.mpr hE
    · exact h
  · exact h

/-- One check keeps the stored energy non-negative when the harvest rate is
non-negative and the clock has not gone back behind `m_lastHarvestTime`; the
rate is kept and `m_lastHarvestTime` does not pass `now`. -/
theorem canTransmit_keeps_nonneg (now : Time) (d : AmbientIoTDevice)
    (hE : 0 ≤ d.m_currentEnergy) (hrate : 0 ≤ d.m_harvestRate)
    (hlast : d.m_lastHarvestTime ≤ now) :
    0 ≤ (d.CanTransmit now).2.m_currentEnergy ∧
    (d.CanTransmit now).2.m_harvestRate = d.m_harvestRate ∧
    (d.CanTransmit now).2.m_lastHarvestTime ≤ now := by
  have hacc : 0 ≤ (harvestUpdate now d).m_currentEnergy ∧
      (harvestUpdate now d).m_harvestRate = d.m_harvestRate ∧
      (harvestUpdate now d).m_lastHarvestTime ≤ now := by
    unfold harvestUpdate
    split
    · refine ⟨?_, rfl, le_rfl⟩
      exact add_nonneg hE (mul_nonneg hrate (sub_nonneg.mpr hlast))
    · exact ⟨hE, rfl, hlast⟩
  obtain ⟨h1, h2, h3⟩ := hacc
  obtain ⟨f1, f2, _, _⟩ := energySwitch_fields (harvestUpdate now d)
  refine ⟨energySwitch_nonneg _ h1, ?_, ?_⟩
  · rw [CanTransmit, f1, h2]
  · rw [CanTransmit, f2]
    exact h3

theorem runChecks_keeps_nonneg (times : List Time) :
    ∀ d : AmbientIoTDevice, 0 ≤ d.m_currentEnergy → 0 ≤ d.m_harvestRate →
      (∀ t ∈ times, d.m_lastHarvestTime ≤ t) → times.Pairwise (· ≤ ·) →
      0 ≤ (runChecks times d).m_currentEnergy := by
  induction times with
  | nil =>
    intro d hE _ _ _
    exact hE
  | cons now rest ih =>
    intro d hE hrate hlast hsorted
    obtain ⟨h1, h2, h3⟩ :=
      canTransmit_keeps_nonneg now d hE hrate (hlast now (List.mem_cons_self now rest))
    rw [List.pairwise_cons] at hsorted
    refine ih (d.CanTransmit now).2 h1 (h2 ▸ hrate) ?_ hsorted.2
    intro t ht
    exact le_trans h3 (hsorted.1 t ht)

/-- C10: a device of any role, with or without harvester, that starts with
stored energy `0` and `lastHarvestTime` `0` and has a harvest rate `>= 0`, has a
stored energy `>= 0` after every call of every sequence of `CanTransmit` calls
made at non-decreasing times `>= 0`. -/
theorem storedEnergy_nonneg (d : AmbientIoTDevice) (times : List Time)
    (hE : d.m_currentEnergy = 0) (hlast : d.m_lastHarvestTime = Seconds 0)
    (hrate : 0 ≤ d.m_harvestRate)
    (htimes : ∀ t ∈ times, 0 ≤ t) (hsorted : times.Pairwise (· ≤ ·)) :
    ∀ n, 0 ≤ (runChecks (times.take n) d).m_currentEnergy := by
  intro n
  refine runChecks_keeps_nonneg (times.take n) d (le_of_eq hE.symm) hrate ?_ ?_
  · intro t ht
    rw [hlast]
    exact htimes t (List.mem_of_mem_take ht)
  · exact hsorted.sublist (List.take_sublist n times)

/-- Witness of C10: an active device as `main` sets it up next to one reader,
checked at `1000` s and at `11000` s. -/
theorem storedEnergy_nonneg_witness :
    ((AmbientIoTDevice.new 0).EnableEnergyHarvester 0.00001).m_currentEnergy = 0 ∧
    ((AmbientIoTDevice.new 0).EnableEnergyHarvester 0.00001).m_lastHarvestTime = Seconds 0 ∧
    (0 : ℚ) ≤ ((AmbientIoTDevice.new 0).EnableEnergyHarvester 0.00001).m_harvestRate ∧
    0 ≤ (runChecks (([1000, 11000] : List Time).take 1)
      ((AmbientIoTDevice.new 0).EnableEnergyHarvester 0.00001)).m_currentEnergy ∧
    0 ≤ (runChecks (([1000, 11000] : List Time).take 2)
      ((AmbientIoTDevice.new 0).EnableEnergyHarvester 0.00001)).m_currentEnergy := by
  have hrate : (0 : ℚ) ≤ ((AmbientIoTDevice.new 0).EnableEnergyHarvester 0.00001).m_harvestRate := by
    norm_num [EnableEnergyHarvester]
  have h := storedEnergy_nonneg ((AmbientIoTDevice.new 0).EnableEnergyHarvester 0.00001)
    [1000, 11000] rfl rfl hrate
    (by
      intro t ht
      simp only [List.mem_cons, List.mem_singleton, List.not_mem_nil, or_false] at ht
      rcases ht with h | h <;> subst h <;> norm_num)
    (by
      simp only [List.pairwise_cons, List.mem_singleton, List.not_mem_nil, forall_eq,
        List.Pairwise.nil, and_true]
      norm_num)
  exact ⟨rfl, rfl, hrate, h 1, h 2⟩

/-! ### One check: what it can take from the stored energy -/

/-- The role switch pays the cost of the role when it answers true and leaves
the device as it is when it answers false. -/
theorem energySwitch_pays (e : AmbientIoTDevice) (c : ℚ)
    (hc : e.m_deviceType = ACTIVE_DEVICE ∧ c = 0.1 ∨
      (e.m_deviceType = MONOSTATIC_BACKSCATTER ∨ e.m_deviceType = BISTATIC_BACKSCATTER) ∧
        c = 0.01 ∨
      e.m_deviceType = CARRIER_WAVE_SOURCE ∧ c = 0) :
    ((energySwitch e).1 = true → (energySwitch e).2.m_currentEnergy = e.m_currentEnergy - c) ∧
    ((energySwitch e).1 = false → (energySwitch e).2 = e) := by
  rcases hc with ⟨ht, hc⟩ | ⟨ht | ht, hc⟩ | ⟨ht, hc⟩ <;> subst hc
  · by_cases hE : e.m_currentEnergy ≥ 0.1 <;> simp [energySwitch, ht, hE]
  · by_cases hE : e.m_currentEnergy ≥ 0.01 <;> simp [energySwitch, ht, hE]
  · by_cases hE : e.m_currentEnergy ≥ 0.01 <;> simp [energySwitch, ht, hE]
  · simp [energySwitch, ht]

theorem harvestUpdate_energy (now : Time) (d : AmbientIoTDevice) :
    (harvestUpdate now d).m_currentEnergy = d.m_currentEnergy +
      (if d.m_hasEnergyHarvester = true then
        d.m_harvestRate * (now - d.m_lastHarvestTime) else 0) := by
  unfold harvestUpdate
  by_cases h : d.m_hasEnergyHarvester = true
  · simp [h, Time.GetSeconds]
  · simp [h]

/-- C11: at most one deduction per check, and the energy only decreases on
success. For a device with harvest rate `>= 0` and a call of `CanTransmit` at a
time `now >= lastHarvestTime`: if the call returns false the stored energy
afterwards is at least the stored energy before; if it returns true the stored
energy afterwards is the stored energy before, plus the accrued amount
(`harvestRate * (now - lastHarvestTime)` with the harvester on, nothing with it
off), minus exactly one role cost `c` (`0.1` for `ACTIVE_DEVICE`, `0.01` for the
two backscatter roles, `0` for `CARRIER_WAVE_SOURCE`). -/
theorem canTransmit_single_deduction (now : Time) (d : AmbientIoTDevice) (c : ℚ)
    (hrate : 0 ≤ d.m_harvestRate) (hnow : d.m_lastHarvestTime ≤ now)
    (hc : d.m_deviceType = ACTIVE_DEVICE ∧ c = 0.1 ∨
      (d.m_deviceType = MONOSTATIC_BACKSCATTER ∨ d.m_deviceType = BISTATIC_BACKSCATTER) ∧
        c = 0.01 ∨
      d.m_deviceType = CARRIER_WAVE_SOURCE ∧ c = 0) :
    ((d.CanTransmit now).1 = false →
      (d.CanTransmit now).2.m_currentEnergy ≥ d.m_currentEnergy) ∧
    ((d.CanTransmit now).1 = true →
      (d.CanTransmit now).2.m_currentEnergy = d.m_currentEnergy +
        (if d.m_hasEnergyHarvester = true then
          d.m_harvestRate * (now - d.m_lastHarvestTime) else 0) - c) := by
  have hc1 : (harvestUpdate now d).m_deviceType = ACTIVE_DEVICE ∧ c = 0.1 ∨
      ((harvestUpdate now d).m_deviceType = MONOSTATIC_BACKSCATTER ∨
        (harvestUpdate now d).m_deviceType = BISTATIC_BACKSCATTER) ∧ c = 0.01 ∨
      (harvestUpdate now d).m_deviceType = CARRIER_WAVE_SOURCE ∧ c = 0 := by
    rw [harvestUpdate_deviceType]
    exact hc
  obtain ⟨hpay, hkeep⟩ := energySwitch_pays (harvestUpdate now d) c hc1
  have hacc : 0 ≤ (if d.m_hasEnergyHarvester = true then
      d.m_harvestRate * (now - d.m_lastHarvestTime) else 0) := by
    split
    · exact mul_nonneg hrate (sub_nonneg.mpr hnow)
    · exact le_rfl
  refine ⟨?_, ?_⟩
  · intro hfalse
    have h := hkeep hfalse
    rw [CanTransmit, h, harvestUpdate_energy]
    exact le_add_of_nonneg_right hacc
  · intro htrue
    have h := hpay htrue
    rw [CanTransmit, h, harvestUpdate_energy]

/-- Witness of C11: an active device harvesting `1/100` J/s since time `0`,
holding `0.05` J, checked at time `10`, answers true and is left with `0.05`. -/
theorem canTransmit_single_deduction_witness :
    ((deviceWith ACTIVE_DEVICE true 0.01 0.05 0 none).CanTransmit 10).1 = true ∧
    ((deviceWith ACTIVE_DEVICE true 0.01 0.05 0 none).CanTransmit 10).2.m_currentEnergy
      = 0.05 + 0.01 * (10 - 0) - 0.1 := by
  have h := canTransmit_single_deduction 10 (deviceWith ACTIVE_DEVICE true 0.01 0.05 0 none) 0.1
    (by norm_num [deviceWith, AmbientIoTDevice.new])
    (by norm_num [deviceWith, AmbientIoTDevice.new, Seconds])
    (Or.inl ⟨rfl, rfl⟩)
  have hb : ((deviceWith ACTIVE_DEVICE true 0.01 0.05 0 none).CanTransmit 10).1 = true := by
    norm_num [CanTransmit, energySwitch, harvestUpdate, deviceWith, AmbientIoTDevice.new,
      Time.GetSeconds]
  refine ⟨hb, ?_⟩
  rw [h.2 hb]
  simp [deviceWith, AmbientIoTDevice.new]

/-- C12: the concrete scenario, in exact arithmetic. With density `0.001` and
distance `10` the harvest rate is `0.001/100 = 1e-5`. An active device with that
rate, harvester on, stored energy `0` and `lastHarvestTime` `0`, checked at
`1000` s, answers false and holds `0.01`; checked again at `11000` s it answers
true and is left with exactly `0.01`. -/
theorem concrete_scenario (uninit : ℚ) :
    (AmbientEnergySource.new.SetEnergyDensity 0.001).CalculateHarvestRate 10 = 0.00001 ∧
    (((AmbientIoTDevice.new uninit).SetDeviceType ACTIVE_DEVICE).EnableEnergyHarvester
      ((AmbientEnergySource.new.SetEnergyDensity 0.001).CalculateHarvestRate 10)).CanTransmit
        (Seconds 1000)
      = (false, deviceWith ACTIVE_DEVICE true 0.00001 0.01 1000 none) ∧
    (deviceWith ACTIVE_DEVICE true 0.00001 0.01 1000 none).CanTransmit (Seconds 11000)
      = (true, deviceWith ACTIVE_DEVICE true 0.00001 0.01 11000 none) ∧
    (runChecks [Seconds 1000, Seconds 11000]
      (((AmbientIoTDevice.new uninit).SetDeviceType ACTIVE_DEVICE).EnableEnergyHarvester
        ((AmbientEnergySource.new.SetEnergyDensity 0.001).CalculateHarvestRate
          10))).m_currentEnergy = 0.01 := by
  have hrate : (AmbientEnergySource.new.SetEnergyDensity 0.001).CalculateHarvestRate 10
      = 0.00001 := by
    norm_num [AmbientEnergySource.CalculateHarvestRate, AmbientEnergySource.clampDistance,
      AmbientEnergySource.SetEnergyDensity]
  have h1 : (((AmbientIoTDevice.new uninit).SetDeviceType ACTIVE_DEVICE).EnableEnergyHarvester
      0.00001).CanTransmit (Seconds 1000)
      = (false, deviceWith ACTIVE_DEVICE true 0.00001 0.01 1000 none) := by
    norm_num [CanTransmit, energySwitch, harvestUpdate, deviceWith, AmbientIoTDevice.new,
      SetDeviceType, EnableEnergyHarvester, Time.GetSeconds, Seconds]
  have h2 : (deviceWith ACTIVE_DEVICE true 0.00001 0.01 1000 none).CanTransmit (Seconds 11000)
      = (true, deviceWith ACTIVE_DEVICE true 0.00001 0.01 11000 none) := by
    norm_num [CanTransmit, energySwitch, harvestUpdate, deviceWith, AmbientIoTDevice.new,
      Time.GetSeconds, Seconds]
  refine ⟨hrate, ?_, h2, ?_⟩
  · rw [hrate, h1]
  · rw [hrate, runChecks, h1, runChecks, h2, runChecks]
    simp [deviceWith]

theorem harvestUpdate_same_time (now : Time) (d : AmbientIoTDevice)
    (hon : d.m_hasEnergyHarvester = true) (hlast : d.m_lastHarvestTime = now) :
    harvestUpdate now d = d := by
  cases d
  simp only at hon hlast
  subst hlast
  simp [harvestUpdate, hon, Time.GetSeconds]

/-- C13: zero-elapsed idempotence. For a device of any role with the harvester
on, at any rate, and two consecutive `CanTransmit` calls at the same `now`: the
accrual of the second call adds nothing (it leaves the device as the first call
left it), so the stored energy after the second call is the stored energy after
the first call minus the role cost `c` when the second call returns true, and
exactly that energy when it returns false; `lastHarvestTime` is `now` after the
first call and after the second. -/
theorem canTransmit_zero_elapsed (now : Time) (d : AmbientIoTDevice) (c : ℚ)
    (hon : d.m_hasEnergyHarvester = true)
    (hc : d.m_deviceType = ACTIVE_DEVICE ∧ c = 0.1 ∨
      (d.m_deviceType = MONOSTATIC_BACKSCATTER ∨ d.m_deviceType = BISTATIC_BACKSCATTER) ∧
        c = 0.01 ∨
      d.m_deviceType = CARRIER_WAVE_SOURCE ∧ c = 0) :
    harvestUpdate now (d.CanTransmit now).2 = (d.CanTransmit now).2 ∧
    (((d.CanTransmit now).2.CanTransmit now).1 = true →
      ((d.CanTransmit now).2.CanTransmit now).2.m_currentEnergy
        = (d.CanTransmit now).2.m_currentEnergy - c) ∧
    (((d.CanTransmit now).2.CanTransmit now).1 = false →
      ((d.CanTransmit now).2.CanTransmit now).2.m_currentEnergy
        = (d.CanTransmit now).2.m_currentEnergy) ∧
    (d.CanTransmit now).2.m_lastHarvestTime = now ∧
    ((d.CanTransmit now).2.CanTransmit now).2.m_lastHarvestTime = now := by
  obtain ⟨_, f2, f3, f4⟩ := energySwitch_fields (harvestUpdate now d)
  have hu : (harvestUpdate now d).m_hasEnergyHarvester = true ∧
      (harvestUpdate now d).m_lastHarvestTime = now := by
    simp [harvestUpdate, hon]
  have hon1 : (d.CanTransmit now).2.m_hasEnergyHarvester = true := by
    rw [CanTransmit, f3]
    exact hu.1
  have hlast1 : (d.CanTransmit now).2.m_lastHarvestTime = now := by
    rw [CanTransmit, f2]
    exact hu.2
  have htype1 : (d.CanTransmit now).2.m_deviceType = d.m_deviceType := by
    rw [CanTransmit, f4, harvestUpdate_deviceType]
  have hsame := harvestUpdate_same_time now (d.CanTransmit now).2 hon1 hlast1
  have hc1 : (d.CanTransmit now).2.m_deviceType = ACTIVE_DEVICE ∧ c = 0.1 ∨
      ((d.CanTransmit now).2.m_deviceType = MONOSTATIC_BACKSCATTER ∨
        (d.CanTransmit now).2.m_deviceType = BISTATIC_BACKSCATTER) ∧ c = 0.01 ∨
      (d.CanTransmit now).2.m_deviceType = CARRIER_WAVE_SOURCE ∧ c = 0 := by
    rw [htype1]
    exact hc
  obtain ⟨hpay, hkeep⟩ := energySwitch_pays (d.CanTransmit now).2 c hc1
  have hsecond : (d.CanTransmit now).2.CanTransmit now
      = energySwitch (d.CanTransmit now).2 := by
    show energySwitch (harvestUpdate now (d.CanTransmit now).2) = _
    rw [hsame]
  refine ⟨hsame, ?_, ?_, hlast1, ?_⟩
  · intro htrue
    rw [hsecond] at htrue ⊢
    exact hpay htrue
  · intro hfalse
    rw [hsecond] at hfalse ⊢
    rw [hkeep hfalse]
  · rw [hsecond, (energySwitch_fields (d.CanTransmit now).2).2.1]
    exact hlast1

/-- Witness of C13: a monostatic device harvesting `1` J/s since time `0`,
holding nothing, checked twice at time `1`: it holds `0.99` after the first call
and `0.98` after the second. -/
theorem canTransmit_zero_elapsed_witness :
    ((deviceWith MONOSTATIC_BACKSCATTER true 1 0 0 none).CanTransmit 1).2.m_currentEnergy
      = 0.99 ∧
    (((deviceWith MONOSTATIC_BACKSCATTER true 1 0 0 none).CanTransmit 1).2.CanTransmit 1).1
      = true ∧
    (((deviceWith MONOSTATIC_BACKSCATTER true 1 0 0 none).CanTransmit
      1).2.CanTransmit 1).2.m_currentEnergy = 0.98 := by
  have h := canTransmit_zero_elapsed 1 (deviceWith MONOSTATIC_BACKSCATTER true 1 0 0 none) 0.01
    rfl (Or.inr (Or.inl ⟨Or.inl rfl, rfl⟩))
  have h1 : (deviceWith MONOSTATIC_BACKSCATTER true 1 0 0 none).CanTransmit 1
      = (true, deviceWith MONOSTATIC_BACKSCATTER true 1 0.99 1 none) := by
    norm_num [CanTransmit, energySwitch, harvestUpdate, deviceWith, AmbientIoTDevice.new,
      Time.GetSeconds, Seconds]
  have hb : (((deviceWith MONOSTATIC_BACKSCATTER true 1 0 0 none).CanTransmit
      1).2.CanTransmit 1).1 = true := by
    rw [h1]
    norm_num [CanTransmit, energySwitch, harvestUpdate, deviceWith, AmbientIoTDevice.new,
      Time.GetSeconds]
  refine ⟨?_, hb, ?_⟩
  · rw [h1]
    rfl
  · rw [h.2.1 hb, h1]
    norm_num [deviceWith]

/-- C16, as stated, fails: the first carrier source that `main` builds, checked
at the scheduled time `10` s, answers true but its `lastHarvestTime` is still
`0`, not `10`. -/
theorem carrierSource_check_keeps_lastHarvestTime_counterexample :
    ((setupCarrierSource 0 0).CanTransmit (Seconds 10)).1 = true ∧
    ((setupCarrierSource 0 0).CanTransmit (Seconds 10)).2.m_lastHarvestTime = Seconds 0 ∧
    ((setupCarrierSource 0 0).CanTransmit (Seconds 10)).2.m_lastHarvestTime ≠ Seconds 10 := by
  have h : (setupCarrierSource 0 0).CanTransmit (Seconds 10) = (true, setupCarrierSource 0 0) := by
    rw [canTransmit_carrier _ _ rfl, harvestUpdate_disabled _ _ rfl]
  rw [h]
  refine ⟨rfl, rfl, ?_⟩
  norm_num [setupCarrierSource, SetAssociatedNode, SetDeviceType, AmbientIoTDevice.new, Seconds]

/-- C16, amended: for every carrier source built by `main`, a check at any time
`now` answers true and leaves the device exactly as built: the harvester is
off, so the accrual block is skipped, `lastHarvestTime` is not advanced (it
stays `0`) and the stored energy stays `0`. -/
theorem carrierSource_check_unchanged (node : Nat) (uninit : ℚ) (now : Time) :
    (setupCarrierSource node uninit).m_hasEnergyHarvester = false ∧
    (setupCarrierSource node uninit).CanTransmit now
      = (true, setupCarrierSource node uninit) ∧
    ((setupCarrierSource node uninit).CanTransmit now).2.m_lastHarvestTime = Seconds 0 ∧
    ((setupCarrierSource node uninit).CanTransmit now).2.m_currentEnergy = 0 := by
  have h : (setupCarrierSource node uninit).CanTransmit now
      = (true, setupCarrierSource node uninit) := by
    rw [canTransmit_carrier _ _ rfl, harvestUpdate_disabled _ _ rfl]
  rw [h]
  exact ⟨rfl, rfl, rfl, rfl⟩

/-- C18: `CanTransmit` itself treats `BISTATIC_BACKSCATTER` exactly like
`MONOSTATIC_BACKSCATTER`. For every device state, time and carrier pointer
(null included), the call on the device with role bistatic returns the same
flag and leaves the same device, role apart, as the call on the device with
role monostatic and otherwise identical members: in particular the same stored
energy and `lastHarvestTime`. The carrier pointer is not read: with any other
pointer in its place the flag and every other member come out the same. The
carrier object is not touched: the call on the object at index `i` completes
whatever the pointer is, its outcome is fixed by that object alone, and every
other object is left as it was. -/
theorem canTransmit_bistatic_like_monostatic (now : Time) (d : AmbientIoTDevice) :
    ((d.SetDeviceType BISTATIC_BACKSCATTER).CanTransmit now).1
      = ((d.SetDeviceType MONOSTATIC_BACKSCATTER).CanTransmit now).1 ∧
    ((d.SetDeviceType BISTATIC_BACKSCATTER).CanTransmit now).2
      = (((d.SetDeviceType MONOSTATIC_BACKSCATTER).CanTransmit now).2).SetDeviceType
        BISTATIC_BACKSCATTER ∧
    ((d.SetDeviceType BISTATIC_BACKSCATTER).CanTransmit now).2.m_currentEnergy
      = ((d.SetDeviceType MONOSTATIC_BACKSCATTER).CanTransmit now).2.m_currentEnergy ∧
    ((d.SetDeviceType BISTATIC_BACKSCATTER).CanTransmit now).2.m_lastHarvestTime
      = ((d.SetDeviceType MONOSTATIC_BACKSCATTER).CanTransmit now).2.m_lastHarvestTime ∧
    (∀ source : Option Nat,
      (((d.SetDeviceType BISTATIC_BACKSCATTER).SetCarrierWaveSource source).CanTransmit now).1
        = ((d.SetDeviceType BISTATIC_BACKSCATTER).CanTransmit now).1 ∧
      (((d.SetDeviceType BISTATIC_BACKSCATTER).SetCarrierWaveSource source).CanTransmit now).2
        = (((d.SetDeviceType BISTATIC_BACKSCATTER).CanTransmit now).2).SetCarrierWaveSource
          source) ∧
    (∀ (devs : List AmbientIoTDevice) (i : Nat),
      devs[i]? = some (d.SetDeviceType BISTATIC_BACKSCATTER) →
      ∃ devs1, callCanTransmit now i devs
          = some (((d.SetDeviceType BISTATIC_BACKSCATTER).CanTransmit now).1, devs1) ∧
        devs1[i]? = some ((d.SetDeviceType BISTATIC_BACKSCATTER).CanTransmit now).2 ∧
        ∀ k, k ≠ i → devs1[k]? = devs[k]?) := by
  have hpair : ∀ source : Option Nat,
      ((d.SetDeviceType BISTATIC_BACKSCATTER).SetCarrierWaveSource source).CanTransmit now
        = (((d.SetDeviceType MONOSTATIC_BACKSCATTER).CanTransmit now).1,
          ((((d.SetDeviceType MONOSTATIC_BACKSCATTER).CanTransmit now).2).SetDeviceType
            BISTATIC_BACKSCATTER).SetCarrierWaveSource source) := by
    intro source
    by_cases hh : d.m_hasEnergyHarvester = true
    · by_cases hE : d.m_currentEnergy + d.m_harvestRate * (now - d.m_lastHarvestTime) ≥ 0.01
      · simp [CanTransmit, energySwitch, harvestUpdate, SetDeviceType, SetCarrierWaveSource,
          Time.GetSeconds, hh, hE]
      · simp [CanTransmit, energySwitch, harvestUpdate, SetDeviceType, SetCarrierWaveSource,
          Time.GetSeconds, hh, hE]
    · by_cases hE : d.m_currentEnergy ≥ 0.01
      · simp [CanTransmit, energySwitch, harvestUpdate, SetDeviceType, SetCarrierWaveSource,
          hh, hE]
      · simp [CanTransmit, energySwitch, harvestUpdate, SetDeviceType, SetCarrierWaveSource,
          hh, hE]
  have hself : (d.SetDeviceType BISTATIC_BACKSCATTER).CanTransmit now
      = (((d.SetDeviceType MONOSTATIC_BACKSCATTER).CanTransmit now).1,
        (((d.SetDeviceType MONOSTATIC_BACKSCATTER).CanTransmit now).2).SetDeviceType
          BISTATIC_BACKSCATTER) := by
    by_cases hh : d.m_hasEnergyHarvester = true
    · by_cases hE : d.m_currentEnergy + d.m_harvestRate * (now - d.m_lastHarvestTime) ≥ 0.01
      · simp [CanTransmit, energySwitch, harvestUpdate, SetDeviceType, Time.GetSeconds, hh, hE]
      · simp [CanTransmit, energySwitch, harvestUpdate, SetDeviceType, Time.GetSeconds, hh, hE]
    · by_cases hE : d.m_currentEnergy ≥ 0.01
      · simp [CanTransmit, energySwitch, harvestUpdate, SetDeviceType, hh, hE]
      · simp [CanTransmit, energySwitch, harvestUpdate, SetDeviceType, hh, hE]
  refine ⟨?_, ?_, ?_, ?_, ?_, ?_⟩
  · rw [hself]
  · rw [hself]
  · rw [hself]
    rfl
  · rw [hself]
    rfl
  · intro source
    rw [hpair source, hself]
    exact ⟨rfl, rfl⟩
  · intro devs i hdev
    have hi : i < devs.length := lt_length_of_getElem? devs i _ hdev
    refine ⟨devs.set i ((d.SetDeviceType BISTATIC_BACKSCATTER).CanTransmit now).2, ?_, ?_, ?_⟩
    · simp [callCanTransmit, hdev]
    · simp [hi]
    · intro k hk
      exact List.getElem?_set_ne (Ne.symm hk)

/-! ### The registry built by `main` -/

/-- Where a device of the registry comes from: the entry at index `idx` was set
up by one of the four loops, for the node of that loop's container whose index
is `idx` minus the number of devices set up by the loops before. -/
theorem buildAmbientDevices_entry (sqrt : ℚ → ℚ) (ambientSource : AmbientEnergySource)
    (baseStations carrierWaveSources activeDevices monostaticDevices bistaticDevices :
      List Vector) (uninit : Nat → ℚ) (idx : Nat) (dev : AmbientIoTDevice)
    (h : (buildAmbientDevices sqrt ambientSource baseStations carrierWaveSources
      activeDevices monostaticDevices bistaticDevices uninit)[idx]? = some dev) :
    (idx < carrierWaveSources.length ∧ dev = setupCarrierSource idx (uninit idx)) ∨
    (∃ n devicePos, activeDevices[n]? = some devicePos ∧
      idx = carrierWaveSources.length + n ∧
      dev = setupActiveDevice sqrt ambientSource baseStations n devicePos (uninit idx)) ∨
    (∃ n devicePos, monostaticDevices[n]? = some devicePos ∧
      idx = carrierWaveSources.length + activeDevices.length + n ∧
      dev = setupMonostaticDevice sqrt ambientSource baseStations n devicePos (uninit idx)) ∨
    (∃ n devicePos, bistaticDevices[n]? = some devicePos ∧
      idx = carrierWaveSources.length + activeDevices.length + monostaticDevices.length + n ∧
      dev = setupBistaticDevice sqrt ambientSource baseStations carrierWaveSources n devicePos
        (uninit idx)) := by
  simp only [buildAmbientDevices, List.nil_append, List.length_nil, Nat.zero_add,
    List.getElem?_append, List.getElem?_mapIdx, List.length_append, List.length_mapIdx] at h
  split at h
  · split at h
    · split at h
      · rename_i _ _ h3
        cases hp : carrierWaveSources[idx]? with
        | none => simp [hp] at h
        | some p =>
          simp only [hp, Option.map_some', Option.some.injEq] at h
          exact Or.inl ⟨h3, h.symm⟩
      · rename_i _ _ h3
        cases hp : activeDevices[idx - carrierWaveSources.length]? with
        | none => simp [hp] at h
        | some p =>
          simp only [hp, Option.map_some', Option.some.injEq] at h
          have hidx : idx = carrierWaveSources.length + (idx - carrierWaveSources.length) := by
            omega
          refine Or.inr (Or.inl ⟨idx - carrierWaveSources.length, p, hp, hidx, ?_⟩)
          rw [← h, ← hidx]
    · rename_i _ h2
      cases hp : monostaticDevices[idx - (carrierWaveSources.length + activeDevices.length)]? with
      | none => simp [hp] at h
      | some p =>
        simp only [hp, Option.map_some', Option.some.injEq] at h
        have hidx : idx = carrierWaveSources.length + activeDevices.length
            + (idx - (carrierWaveSources.length + activeDevices.length)) := by
          omega
        refine Or.inr (Or.inr (Or.inl ⟨_, p, hp, hidx, ?_⟩))
        rw [← h, ← hidx]
  · rename_i h1
    cases hp : bistaticDevices[idx - (carrierWaveSources.length + activeDevices.length
        + monostaticDevices.length)]? with
    | none => simp [hp] at h
    | some p =>
      simp only [hp, Option.map_some', Option.some.injEq] at h
      have hidx : idx = carrierWaveSources.length + activeDevices.length
          + monostaticDevices.length + (idx - (carrierWaveSources.length + activeDevices.length
          + monostaticDevices.length)) := by
        omega
      refine Or.inr (Or.inr (Or.inr ⟨_, p, hp, hidx, ?_⟩))
      rw [← h, ← hidx]

/-- The first entries of the registry are the carrier sources, in the order of
their nodes. -/
theorem buildAmbientDevices_carrier (sqrt : ℚ → ℚ) (ambientSource : AmbientEnergySource)
    (baseStations carrierWaveSources activeDevices monostaticDevices bistaticDevices :
      List Vector) (uninit : Nat → ℚ) (j : Nat) (hj : j < carrierWaveSources.length) :
    (buildAmbientDevices sqrt ambientSource baseStations carrierWaveSources
      activeDevices monostaticDevices bistaticDevices uninit)[j]?
      = some (setupCarrierSource j (uninit j)) := by
  have h1 : j < carrierWaveSources.length + activeDevices.length := by omega
  have h2 : j < carrierWaveSources.length + activeDevices.length
      + monostaticDevices.length := by omega
  simp [buildAmbientDevices, List.getElem?_append, List.getElem?_mapIdx, hj, h1, h2]

/-- The distance the scan ends with, when there is a candidate and every
distance is a finite `double` (at most `DBL_MAX`): it is the distance of some
candidate, and no candidate is closer. -/
theorem nearestScan_minDist (sqrt : ℚ → ℚ) (devicePos : Vector) (positions : List Vector)
    (hne : positions ≠ [])
    (hfin : ∀ p ∈ positions, CalcDistance sqrt devicePos p ≤ DBL_MAX) :
    ∃ q ∈ positions, (nearestScan sqrt devicePos positions).1 = CalcDistance sqrt devicePos q ∧
      ∀ p ∈ positions, CalcDistance sqrt devicePos q ≤ CalcDistance sqrt devicePos p := by
  rcases scanFrom_spec sqrt devicePos positions 0 (DBL_MAX, none) with ⟨heq, hall⟩ | hbetter
  · cases positions with
    | nil => exact absurd rfl hne
    | cons q rest =>
      have hq : CalcDistance sqrt devicePos q = DBL_MAX :=
        le_antisymm (hfin q (List.mem_cons_self q rest)) (hall q (List.mem_cons_self q rest))
      refine ⟨q, List.mem_cons_self q rest, ?_, ?_⟩
      · rw [nearestScan, heq, hq]
      · intro p hp
        rw [hq]
        exact hall p hp
  · obtain ⟨k, q, hk, hres, _, hmin⟩ := hbetter
    refine ⟨q, List.getElem?_mem hk, ?_, ?_⟩
    · rw [nearestScan, hres]
    · intro p hp
      obtain ⟨k1, hk1⟩ := List.mem_iff_getElem?.mp hp
      exact (hmin k1 p hk1).1

/-- C14: the harvest parameters the topology builder gives. In every topology
with at least one reader and at least one carrier source (all distances being
finite `double`s, that is at most `DBL_MAX`), every device of the registry with
role `ACTIVE_DEVICE` or `MONOSTATIC_BACKSCATTER` has the harvester enabled and
the harvest rate `CalculateHarvestRate (d)`, `d` the smallest distance from its
node to a reader; every device with role `BISTATIC_BACKSCATTER` has the
harvester enabled and the rate `CalculateHarvestRate (min (d, e))`, `d` the
smallest distance to a reader and `e`, found on its own, the smallest distance
to a carrier source. -/
theorem builder_harvest_rate (sqrt : ℚ → ℚ) (ambientSource : AmbientEnergySource)
    (baseStations carrierWaveSources activeDevices monostaticDevices bistaticDevices :
      List Vector) (uninit : Nat → ℚ)
    (hbs : baseStations ≠ []) (hcw : carrierWaveSources ≠ [])
    (hfin : ∀ devicePos ∈ activeDevices ++ monostaticDevices ++ bistaticDevices,
      ∀ p ∈ baseStations ++ carrierWaveSources, CalcDistance sqrt devicePos p ≤ DBL_MAX)
    (idx : Nat) (dev : AmbientIoTDevice)
    (hdev : (buildAmbientDevices sqrt ambientSource baseStations carrierWaveSources
      activeDevices monostaticDevices bistaticDevices uninit)[idx]? = some dev) :
    (dev.m_deviceType = ACTIVE_DEVICE →
      ∃ n devicePos bsPos, dev.m_node = some n ∧ activeDevices[n]? = some devicePos ∧
        bsPos ∈ baseStations ∧
        (∀ p ∈ baseStations,
          CalcDistance sqrt devicePos bsPos ≤ CalcDistance sqrt devicePos p) ∧
        dev.m_hasEnergyHarvester = true ∧
        dev.m_harvestRate
          = ambientSource.CalculateHarvestRate (CalcDistance sqrt devicePos bsPos)) ∧
    (dev.m_deviceType = MONOSTATIC_BACKSCATTER →
      ∃ n devicePos bsPos, dev.m_node = some n ∧ monostaticDevices[n]? = some devicePos ∧
        bsPos ∈ baseStations ∧
        (∀ p ∈ baseStations,
          CalcDistance sqrt devicePos bsPos ≤ CalcDistance sqrt devicePos p) ∧
        dev.m_hasEnergyHarvester = true ∧
        dev.m_harvestRate
          = ambientSource.CalculateHarvestRate (CalcDistance sqrt devicePos bsPos)) ∧
    (dev.m_deviceType = BISTATIC_BACKSCATTER →
      ∃ n devicePos bsPos cwPos, dev.m_node = some n ∧
        bistaticDevices[n]? = some devicePos ∧
        bsPos ∈ baseStations ∧
        (∀ p ∈ baseStations,
          CalcDistance sqrt devicePos bsPos ≤ CalcDistance sqrt devicePos p) ∧
        cwPos ∈ carrierWaveSources ∧
        (∀ p ∈ carrierWaveSources,
          CalcDistance sqrt devicePos cwPos ≤ CalcDistance sqrt devicePos p) ∧
        dev.m_hasEnergyHarvester = true ∧
        dev.m_harvestRate = ambientSource.CalculateHarvestRate
          (min (CalcDistance sqrt devicePos bsPos) (CalcDistance sqrt devicePos cwPos))) := by
  have hscanBS : ∀ devicePos ∈ activeDevices ++ monostaticDevices ++ bistaticDevices,
      ∃ q ∈ baseStations,
        (nearestScan sqrt devicePos baseStations).1 = CalcDistance sqrt devicePos q ∧
        ∀ p ∈ baseStations, CalcDistance sqrt devicePos q ≤ CalcDistance sqrt devicePos p := by
    intro devicePos hpos
    exact nearestScan_minDist sqrt devicePos baseStations hbs
      (fun p hp => hfin devicePos hpos p (List.mem_append_left _ hp))
  have hscanCW : ∀ devicePos ∈ activeDevices ++ monostaticDevices ++ bistaticDevices,
      ∃ q ∈ carrierWaveSources,
        (nearestScan sqrt devicePos carrierWaveSources).1 = CalcDistance sqrt devicePos q ∧
        ∀ p ∈ carrierWaveSources,
          CalcDistance sqrt devicePos q ≤ CalcDistance sqrt devicePos p := by
    intro devicePos hpos
    exact nearestScan_minDist sqrt devicePos carrierWaveSources hcw
      (fun p hp => hfin devicePos hpos p (List.mem_append_right _ hp))
  rcases buildAmbientDevices_entry sqrt ambientSource baseStations carrierWaveSources
      activeDevices monostaticDevices bistaticDevices uninit idx dev hdev with
    ⟨_, hcar⟩ | ⟨n, devicePos, hn, _, hact⟩ | ⟨n, devicePos, hn, _, hmono⟩ |
    ⟨n, devicePos, hn, _, hbi⟩
  · subst hcar
    refine ⟨?_, ?_, ?_⟩ <;> intro h <;> exact AmbientIoTDeviceType.noConfusion h
  · subst hact
    refine ⟨fun _ => ?_, ?_, ?_⟩
    · have hpos : devicePos ∈ activeDevices ++ monostaticDevices ++ bistaticDevices :=
        List.mem_append_left _ (List.mem_append_left _ (List.getElem?_mem hn))
      obtain ⟨q, hq, hval, hmin⟩ := hscanBS devicePos hpos
      refine ⟨n, devicePos, q, rfl, hn, hq, hmin, rfl, ?_⟩
      rw [← hval]
      rfl
    · intro h
      exact AmbientIoTDeviceType.noConfusion h
    · intro h
      exact AmbientIoTDeviceType.noConfusion h
  · subst hmono
    refine ⟨?_, fun _ => ?_, ?_⟩
    · intro h
      exact AmbientIoTDeviceType.noConfusion h
    · have hpos : devicePos ∈ activeDevices ++ monostaticDevices ++ bistaticDevices :=
        List.mem_append_left _ (List.mem_append_right _ (List.getElem?_mem hn))
      obtain ⟨q, hq, hval, hmin⟩ := hscanBS devicePos hpos
      refine ⟨n, devicePos, q, rfl, hn, hq, hmin, rfl, ?_⟩
      rw [← hval]
      rfl
    · intro h
      exact AmbientIoTDeviceType.noConfusion h
  · subst hbi
    refine ⟨?_, ?_, fun _ => ?_⟩
    · intro h
      exact AmbientIoTDeviceType.noConfusion h
    · intro h
      exact AmbientIoTDeviceType.noConfusion h
    · have hpos : devicePos ∈ activeDevices ++ monostaticDevices ++ bistaticDevices :=
        List.mem_append_right _ (List.getElem?_mem hn)
      obtain ⟨q, hq, hval, hmin⟩ := hscanBS devicePos hpos
      obtain ⟨c, hc, hcval, hcmin⟩ := hscanCW devicePos hpos
      refine ⟨n, devicePos, q, c, rfl, hn, hq, hmin, hc, hcmin, rfl, ?_⟩
      rw [← hval, ← hcval]
      rfl

theorem calcDistance_sqrtExact_vertical (h : ℕ) :
    CalcDistance sqrtExact ⟨0, 0, 0⟩ ⟨0, 0, h⟩ = h := by
  have hs := sqrtExact_natCast_sq h
  rw [Nat.cast_mul] at hs
  simp only [CalcDistance, sub_zero, zero_sub, mul_zero, zero_add, neg_mul_neg]
  exact hs

/-- Witness of C14: one reader `30` m above the origin, one carrier source `10` m
above it, one active and one bistatic device at the origin. The bistatic device
is the entry `2` of the registry and its rate is `0.001 / 10^2`. -/
theorem builder_harvest_rate_witness :
    (buildAmbientDevices sqrtExact (AmbientEnergySource.new.SetEnergyDensity 0.001)
      [⟨0, 0, 30⟩] [⟨0, 0, 10⟩] [⟨0, 0, 0⟩] [] [⟨0, 0, 0⟩] (fun _ => 0))[2]?
      = some (setupBistaticDevice sqrtExact (AmbientEnergySource.new.SetEnergyDensity 0.001)
        [⟨0, 0, 30⟩] [⟨0, 0, 10⟩] 0 ⟨0, 0, 0⟩ 0) ∧
    (setupBistaticDevice sqrtExact (AmbientEnergySource.new.SetEnergyDensity 0.001)
        [⟨0, 0, 30⟩] [⟨0, 0, 10⟩] 0 ⟨0, 0, 0⟩ 0).m_harvestRate = 0.00001 ∧
    ∃ n devicePos bsPos cwPos,
      (setupBistaticDevice sqrtExact (AmbientEnergySource.new.SetEnergyDensity 0.001)
        [⟨0, 0, 30⟩] [⟨0, 0, 10⟩] 0 ⟨0, 0, 0⟩ 0).m_node = some n ∧
      ([⟨0, 0, 0⟩] : List Vector)[n]? = some devicePos ∧
      bsPos ∈ ([⟨0, 0, 30⟩] : List Vector) ∧
      (∀ p ∈ ([⟨0, 0, 30⟩] : List Vector),
        CalcDistance sqrtExact devicePos bsPos ≤ CalcDistance sqrtExact devicePos p) ∧
      cwPos ∈ ([⟨0, 0, 10⟩] : List Vector) ∧
      (∀ p ∈ ([⟨0, 0, 10⟩] : List Vector),
        CalcDistance sqrtExact devicePos cwPos ≤ CalcDistance sqrtExact devicePos p) ∧
      (setupBistaticDevice sqrtExact (AmbientEnergySource.new.SetEnergyDensity 0.001)
        [⟨0, 0, 30⟩] [⟨0, 0, 10⟩] 0 ⟨0, 0, 0⟩ 0).m_hasEnergyHarvester = true ∧
      (setupBistaticDevice sqrtExact (AmbientEnergySource.new.SetEnergyDensity 0.001)
        [⟨0, 0, 30⟩] [⟨0, 0, 10⟩] 0 ⟨0, 0, 0⟩ 0).m_harvestRate
        = (AmbientEnergySource.new.SetEnergyDensity 0.001).CalculateHarvestRate
          (min (CalcDistance sqrtExact devicePos bsPos)
            (CalcDistance sqrtExact devicePos cwPos)) := by
  have h30 : CalcDistance sqrtExact ⟨0, 0, 0⟩ ⟨0, 0, 30⟩ = 30 := by
    have h := calcDistance_sqrtExact_vertical 30
    norm_num at h
    exact h
  have h10 : CalcDistance sqrtExact ⟨0, 0, 0⟩ ⟨0, 0, 10⟩ = 10 := by
    have h := calcDistance_sqrtExact_vertical 10
    norm_num at h
    exact h
  have hreg : (buildAmbientDevices sqrtExact (AmbientEnergySource.new.SetEnergyDensity 0.001)
      [⟨0, 0, 30⟩] [⟨0, 0, 10⟩] [⟨0, 0, 0⟩] [] [⟨0, 0, 0⟩] (fun _ => 0))[2]?
      = some (setupBistaticDevice sqrtExact (AmbientEnergySource.new.SetEnergyDensity 0.001)
        [⟨0, 0, 30⟩] [⟨0, 0, 10⟩] 0 ⟨0, 0, 0⟩ 0) := by
    simp [buildAmbientDevices, List.mapIdx_cons]
  have hfin : ∀ devicePos ∈ ([⟨0, 0, 0⟩] : List Vector) ++ [] ++ [⟨0, 0, 0⟩],
      ∀ p ∈ ([⟨0, 0, 30⟩] : List Vector) ++ [⟨0, 0, 10⟩],
        CalcDistance sqrtExact devicePos p ≤ DBL_MAX := by
    intro devicePos hpos p hp
    simp only [List.append_nil, List.cons_append, List.nil_append, List.mem_cons,
      List.mem_singleton, List.not_mem_nil, or_false, or_self] at hpos hp
    subst hpos
    rcases hp with hp | hp <;> subst hp
    · rw [h30]
      norm_num [DBL_MAX]
    · rw [h10]
      norm_num [DBL_MAX]
  refine ⟨hreg, ?_, (builder_harvest_rate sqrtExact
    (AmbientEnergySource.new.SetEnergyDensity 0.001) [⟨0, 0, 30⟩] [⟨0, 0, 10⟩] [⟨0, 0, 0⟩] []
    [⟨0, 0, 0⟩] (fun _ => 0) (by simp) (by simp) hfin 2 _ hreg).2.2 rfl⟩
  norm_num [setupBistaticDevice, EnableEnergyHarvester, nearestScan, scanFrom, h30, h10,
    DBL_MAX, AmbientEnergySource.CalculateHarvestRate, AmbientEnergySource.clampDistance,
    AmbientEnergySource.SetEnergyDensity]

theorem sq_diff_le (B u v : ℚ) (hu : |u| ≤ B) (hv : |v| ≤ B) :
    (u - v) * (u - v) ≤ 4 * (B * B) := by
  rw [abs_le] at hu hv
  nlinarith [mul_nonneg (by linarith : (0 : ℚ) ≤ 2 * B - (u - v))
    (by linarith : (0 : ℚ) ≤ 2 * B + (u - v))]

/-- Between two points whose coordinates lie within `10^150` of zero the squared
distance cannot exceed `DBL_MAX`, so the distance that `CalcDistance` returns is
below `DBL_MAX` for every square root that keeps `[0, DBL_MAX]` below `DBL_MAX`. -/
theorem calcDistance_below_max (sqrt : ℚ → ℚ)
    (hsqrt : ∀ s : ℚ, 0 ≤ s → s ≤ DBL_MAX → sqrt s < DBL_MAX) (a b : Vector)
    (ha : |a.x| ≤ 10 ^ 150 ∧ |a.y| ≤ 10 ^ 150 ∧ |a.z| ≤ 10 ^ 150)
    (hb : |b.x| ≤ 10 ^ 150 ∧ |b.y| ≤ 10 ^ 150 ∧ |b.z| ≤ 10 ^ 150) :
    CalcDistance sqrt a b < DBL_MAX := by
  unfold CalcDistance
  have hx := sq_diff_le (10 ^ 150) a.x b.x ha.1 hb.1
  have hy := sq_diff_le (10 ^ 150) a.y b.y ha.2.1 hb.2.1
  have hz := sq_diff_le (10 ^ 150) a.z b.z ha.2.2 hb.2.2
  have hnum : (3 : ℚ) * (4 * (10 ^ 150 * 10 ^ 150)) ≤ DBL_MAX := by
    norm_num [DBL_MAX]
  apply hsqrt
  · have h1 := mul_self_nonneg (a.x - b.x)
    have h2 := mul_self_nonneg (a.y - b.y)
    have h3 := mul_self_nonneg (a.z - b.z)
    linarith
  · linarith

/-- C15: the carrier binding invariant. In every topology with at least one
carrier source, the coordinates of the bistatic nodes and of the carrier nodes
lying within `10^150` m of zero (so that no squared distance overflows; the
square root maps `[0, DBL_MAX]` below `DBL_MAX`), every device of the registry
with role `BISTATIC_BACKSCATTER` is bound to an index `j` of the registry whose
device has role `CARRIER_WAVE_SOURCE` and is associated with carrier node `j`,
and carrier node `j` is the first carrier node at minimal distance from the node
of the bistatic device: the entry `ambientDevices[j]` is the device set up for
carrier node `j`. -/
theorem builder_carrier_binding (sqrt : ℚ → ℚ) (ambientSource : AmbientEnergySource)
    (baseStations carrierWaveSources activeDevices monostaticDevices bistaticDevices :
      List Vector) (uninit : Nat → ℚ)
    (hcw : carrierWaveSources ≠ [])
    (hsqrt : ∀ s : ℚ, 0 ≤ s → s ≤ DBL_MAX → sqrt s < DBL_MAX)
    (hrange : ∀ p ∈ bistaticDevices ++ carrierWaveSources,
      |p.x| ≤ 10 ^ 150 ∧ |p.y| ≤ 10 ^ 150 ∧ |p.z| ≤ 10 ^ 150)
    (idx : Nat) (dev : AmbientIoTDevice)
    (hdev : (buildAmbientDevices sqrt ambientSource baseStations carrierWaveSources
      activeDevices monostaticDevices bistaticDevices uninit)[idx]? = some dev)
    (hrole : dev.m_deviceType = BISTATIC_BACKSCATTER) :
    ∃ n devicePos j car cwPos, dev.m_node = some n ∧
      bistaticDevices[n]? = some devicePos ∧
      dev.m_carrierSource = some j ∧
      (buildAmbientDevices sqrt ambientSource baseStations carrierWaveSources
        activeDevices monostaticDevices bistaticDevices uninit)[j]? = some car ∧
      car.m_deviceType = CARRIER_WAVE_SOURCE ∧
      car.m_node = some j ∧
      carrierWaveSources[j]? = some cwPos ∧
      ∀ k p, carrierWaveSources[k]? = some p →
        CalcDistance sqrt devicePos cwPos ≤ CalcDistance sqrt devicePos p ∧
        (CalcDistance sqrt devicePos p = CalcDistance sqrt devicePos cwPos → j ≤ k) := by
  have hbelow : ∀ devicePos ∈ bistaticDevices, ∀ p ∈ carrierWaveSources,
      CalcDistance sqrt devicePos p < DBL_MAX := by
    intro devicePos hpos p hp
    exact calcDistance_below_max sqrt hsqrt devicePos p
      (hrange devicePos (List.mem_append_left _ hpos))
      (hrange p (List.mem_append_right _ hp))
  rcases buildAmbientDevices_entry sqrt ambientSource baseStations carrierWaveSources
      activeDevices monostaticDevices bistaticDevices uninit idx dev hdev with
    ⟨_, hcar⟩ | ⟨n, devicePos, _, _, hact⟩ | ⟨n, devicePos, _, _, hmono⟩ |
    ⟨n, devicePos, hn, _, hbi⟩
  · subst hcar
    exact AmbientIoTDeviceType.noConfusion hrole
  · subst hact
    exact AmbientIoTDeviceType.noConfusion hrole
  · subst hmono
    exact AmbientIoTDeviceType.noConfusion hrole
  · subst hbi
    have hsrc : (setupBistaticDevice sqrt ambientSource baseStations carrierWaveSources n
        devicePos (uninit idx)).m_carrierSource
        = (nearestScan sqrt devicePos carrierWaveSources).2 := rfl
    rcases scanFrom_spec sqrt devicePos carrierWaveSources 0 (DBL_MAX, none) with
      ⟨_, hall⟩ | hbetter
    · exfalso
      cases carrierWaveSources with
      | nil => exact hcw rfl
      | cons p rest =>
        exact absurd (hbelow devicePos (List.getElem?_mem hn) p (List.mem_cons_self p rest))
          (not_lt_of_le (hall p (List.mem_cons_self p rest)))
    · obtain ⟨j, q, hj, hres, _, hmin⟩ := hbetter
      have hjlt : j < carrierWaveSources.length := lt_length_of_getElem? _ j q hj
      refine ⟨n, devicePos, j, setupCarrierSource j (uninit j), q, rfl, hn, ?_,
        buildAmbientDevices_carrier sqrt ambientSource baseStations carrierWaveSources
          activeDevices monostaticDevices bistaticDevices uninit j hjlt, rfl, rfl, hj, ?_⟩
      · rw [hsrc, nearestScan, hres, Nat.zero_add]
      · intro k p hk
        refine ⟨(hmin k p hk).1, ?_⟩
        intro heq
        by_contra hlt
        have hstrict := (hmin k p hk).2 (Nat.lt_of_not_le hlt)
        rw [heq] at hstrict
        exact lt_irrefl _ hstrict

theorem sqrtExact_natCast (n : ℕ) : sqrtExact (n : ℚ) = (Nat.sqrt n : ℚ) := by
  unfold sqrtExact
  rw [Rat.num_natCast, Rat.den_natCast, Int.toNat_natCast, Nat.sqrt_one]
  simp

theorem sqrtExact_lt_of_le (N : ℕ) (hN : 4 ≤ N) (s : ℚ) (hs0 : 0 ≤ s) (hs : s ≤ N) :
    sqrtExact s < N := by
  have hden : (0 : ℚ) < (s.den : ℚ) := by exact_mod_cast s.den_pos
  have hnonneg : 0 ≤ s.num := Rat.num_nonneg.mpr hs0
  have hnum : (s.num : ℚ) ≤ (N : ℚ) * s.den := by
    have h := hs
    rw [← Rat.num_div_den s, div_le_iff₀ hden] at h
    exact h
  have hnat : s.num.toNat ≤ N * s.den := by
    have h1 : ((s.num.toNat : ℕ) : ℤ) = s.num := Int.toNat_of_nonneg hnonneg
    have h2 : ((s.num.toNat : ℕ) : ℤ) ≤ ((N * s.den : ℕ) : ℤ) := by
      rw [h1]
      exact_mod_cast hnum
    exact_mod_cast h2
  have hb : 0 < Nat.sqrt s.den := Nat.sqrt_pos.mpr s.den_pos
  have hkey : Nat.sqrt s.num.toNat < N * Nat.sqrt s.den := by
    rw [Nat.sqrt_lt]
    have h3 : s.den < (Nat.sqrt s.den + 1) * (Nat.sqrt s.den + 1) := Nat.lt_succ_sqrt s.den
    have h4 : (Nat.sqrt s.den + 1) * (Nat.sqrt s.den + 1)
        ≤ 4 * (Nat.sqrt s.den * Nat.sqrt s.den) := by nlinarith
    have h5 : N * s.den < N * (4 * (Nat.sqrt s.den * Nat.sqrt s.den)) :=
      Nat.mul_lt_mul_of_pos_left (lt_of_lt_of_le h3 h4) (by omega)
    have h6 : N * (4 * (Nat.sqrt s.den * Nat.sqrt s.den))
        ≤ N * Nat.sqrt s.den * (N * Nat.sqrt s.den) := by
      have : 4 * (Nat.sqrt s.den * Nat.sqrt s.den) ≤ N * (Nat.sqrt s.den * Nat.sqrt s.den) :=
        Nat.mul_le_mul_right _ hN
      calc N * (4 * (Nat.sqrt s.den * Nat.sqrt s.den))
          ≤ N * (N * (Nat.sqrt s.den * Nat.sqrt s.den)) := Nat.mul_le_mul_left N this
        _ = N * Nat.sqrt s.den * (N * Nat.sqrt s.den) := by ring
    exact lt_of_le_of_lt hnat (lt_of_lt_of_le h5 h6)
  unfold sqrtExact
  rw [div_lt_iff₀ (by exact_mod_cast hb)]
  exact_mod_cast hkey

theorem sqrtExact_below_max (s : ℚ) (hs0 : 0 ≤ s) (hs : s ≤ DBL_MAX) :
    sqrtExact s < DBL_MAX := by
  have hmax : DBL_MAX = (((2 ^ 53 - 1) * 2 ^ 971 : ℕ) : ℚ) := by
    norm_num [DBL_MAX]
  rw [hmax] at hs ⊢
  exact sqrtExact_lt_of_le _ (by norm_num) s hs0 hs

theorem setupBistaticDevice_carrierSource (sqrt : ℚ → ℚ) (ambientSource : AmbientEnergySource)
    (baseStations carrierWaveSources : List Vector) (node : Nat) (devicePos : Vector)
    (uninit : ℚ) :
    (setupBistaticDevice sqrt ambientSource baseStations carrierWaveSources node devicePos
      uninit).m_carrierSource = (nearestScan sqrt devicePos carrierWaveSources).2 :=
  rfl

/-- Witness of C15: the topology of `main` with one bistatic node at
`(600, 0, 0)`. The carrier sources lie at distances `948`, `424`, `948`, `424` and
`600` (integer square roots); the device, entry `5` of the registry, is bound to
entry `1`, the first of the two closest. -/
theorem builder_carrier_binding_witness :
    cwPositions ≠ [] ∧
    (∀ s : ℚ, 0 ≤ s → s ≤ DBL_MAX → sqrtExact s < DBL_MAX) ∧
    (∀ p ∈ ([⟨600, 0, 0⟩] : List Vector) ++ cwPositions,
      |p.x| ≤ 10 ^ 150 ∧ |p.y| ≤ 10 ^ 150 ∧ |p.z| ≤ 10 ^ 150) ∧
    (buildAmbientDevices sqrtExact (AmbientEnergySource.new.SetEnergyDensity 0.001)
      bsPositions cwPositions [] [] [⟨600, 0, 0⟩] (fun _ => 0))[5]?
      = some (setupBistaticDevice sqrtExact (AmbientEnergySource.new.SetEnergyDensity 0.001)
        bsPositions cwPositions 0 ⟨600, 0, 0⟩ 0) ∧
    (setupBistaticDevice sqrtExact (AmbientEnergySource.new.SetEnergyDensity 0.001)
      bsPositions cwPositions 0 ⟨600, 0, 0⟩ 0).m_carrierSource = some 1 ∧
    ∃ n devicePos j car cwPos,
      (setupBistaticDevice sqrtExact (AmbientEnergySource.new.SetEnergyDensity 0.001)
        bsPositions cwPositions 0 ⟨600, 0, 0⟩ 0).m_node = some n ∧
      ([⟨600, 0, 0⟩] : List Vector)[n]? = some devicePos ∧
      (setupBistaticDevice sqrtExact (AmbientEnergySource.new.SetEnergyDensity 0.001)
        bsPositions cwPositions 0 ⟨600, 0, 0⟩ 0).m_carrierSource = some j ∧
      (buildAmbientDevices sqrtExact (AmbientEnergySource.new.SetEnergyDensity 0.001)
        bsPositions cwPositions [] [] [⟨600, 0, 0⟩] (fun _ => 0))[j]? = some car ∧
      car.m_deviceType = CARRIER_WAVE_SOURCE ∧
      car.m_node = some j ∧
      cwPositions[j]? = some cwPos ∧
      ∀ k p, cwPositions[k]? = some p →
        CalcDistance sqrtExact devicePos cwPos ≤ CalcDistance sqrtExact devicePos p ∧
        (CalcDistance sqrtExact devicePos p = CalcDistance sqrtExact devicePos cwPos →
          j ≤ k) := by
  have hcw : cwPositions ≠ [] := by simp [cwPositions]
  have hrange : ∀ p ∈ ([⟨600, 0, 0⟩] : List Vector) ++ cwPositions,
      |p.x| ≤ 10 ^ 150 ∧ |p.y| ≤ 10 ^ 150 ∧ |p.z| ≤ 10 ^ 150 := by
    intro p hp
    simp only [cwPositions, List.cons_append, List.nil_append, List.mem_cons,
      List.mem_singleton, List.not_mem_nil, or_false] at hp
    rcases hp with h | h | h | h | h | h <;> subst h <;>
      refine ⟨?_, ?_, ?_⟩ <;> rw [abs_le] <;> constructor <;> norm_num
  have hreg : (buildAmbientDevices sqrtExact (AmbientEnergySource.new.SetEnergyDensity 0.001)
      bsPositions cwPositions [] [] [⟨600, 0, 0⟩] (fun _ => 0))[5]?
      = some (setupBistaticDevice sqrtExact (AmbientEnergySource.new.SetEnergyDensity 0.001)
        bsPositions cwPositions 0 ⟨600, 0, 0⟩ 0) := by
    simp [buildAmbientDevices, cwPositions, List.mapIdx_cons]
  have s948 : sqrtExact 900100 = 948 := by
    have h := sqrtExact_natCast 900100
    have hs : Nat.sqrt 900100 = 948 := (Nat.eq_sqrt.mpr ⟨by norm_num, by norm_num⟩).symm
    rw [hs] at h
    norm_num at h
    exact h
  have s424 : sqrtExact 180100 = 424 := by
    have h := sqrtExact_natCast 180100
    have hs : Nat.sqrt 180100 = 424 := (Nat.eq_sqrt.mpr ⟨by norm_num, by norm_num⟩).symm
    rw [hs] at h
    norm_num at h
    exact h
  have s600 : sqrtExact 360100 = 600 := by
    have h := sqrtExact_natCast 360100
    have hs : Nat.sqrt 360100 = 600 := (Nat.eq_sqrt.mpr ⟨by norm_num, by norm_num⟩).symm
    rw [hs] at h
    norm_num at h
    exact h
  have hrole : (setupBistaticDevice sqrtExact (AmbientEnergySource.new.SetEnergyDensity 0.001)
      bsPositions cwPositions 0 ⟨600, 0, 0⟩ 0).m_deviceType = BISTATIC_BACKSCATTER := rfl
  have hbound := builder_carrier_binding sqrtExact
    (AmbientEnergySource.new.SetEnergyDensity 0.001) bsPositions cwPositions [] []
    [⟨600, 0, 0⟩] (fun _ => 0) hcw sqrtExact_below_max hrange 5
    (setupBistaticDevice sqrtExact (AmbientEnergySource.new.SetEnergyDensity 0.001)
      bsPositions cwPositions 0 ⟨600, 0, 0⟩ 0) hreg hrole
  refine ⟨hcw, sqrtExact_below_max, hrange, hreg, ?_, hbound⟩
  rw [setupBistaticDevice_carrierSource]
  norm_num [nearestScan, scanFrom, cwPositions, CalcDistance, s948, s424, s600, DBL_MAX]

/-! ### The scenario of `main` -/

/-- The scan never ends below a bound that holds for the sentinel and for the
distance of every candidate. -/
theorem nearestScan_minDist_ge (sqrt : ℚ → ℚ) (devicePos : Vector) (positions : List Vector)
    (L : ℚ) (hL : L ≤ DBL_MAX) (h : ∀ p ∈ positions, L ≤ CalcDistance sqrt devicePos p) :
    L ≤ (nearestScan sqrt devicePos positions).1 := by
  rcases scanFrom_spec sqrt devicePos positions 0 (DBL_MAX, none) with ⟨heq, _⟩ | hbetter
  · rw [nearestScan, heq]
    exact hL
  · obtain ⟨k, q, hk, hres, _, _⟩ := hbetter
    rw [nearestScan, hres]
    exact h q (List.getElem?_mem hk)

/-- Every reader and every carrier source of `main` is at least `10` m away from
a node on the ground, for every square root that is at least `10` from `100`
on. -/
theorem calcDistance_main_ge_ten (sqrt : ℚ → ℚ) (hsqrt : ∀ s : ℚ, 100 ≤ s → 10 ≤ sqrt s)
    (devicePos : Vector) (hz : devicePos.z = 0) (p : Vector)
    (hp : p ∈ bsPositions ++ cwPositions) : 10 ≤ CalcDistance sqrt devicePos p := by
  unfold CalcDistance
  apply hsqrt
  have hx := mul_self_nonneg (devicePos.x - p.x)
  have hy := mul_self_nonneg (devicePos.y - p.y)
  have hzz : 100 ≤ (devicePos.z - p.z) * (devicePos.z - p.z) := by
    rw [hz]
    simp only [bsPositions, cwPositions, List.cons_append, List.nil_append, List.mem_cons,
      List.mem_singleton, List.not_mem_nil, or_false] at hp
    rcases hp with h | h | h | h | h | h | h | h <;> subst h <;> norm_num
  linarith

/-- With the density of `main`, the rate at a distance of at least `10` m lies
between `0` and `0.00001`. -/
theorem calculateHarvestRate_main_le (distance : ℚ) (hd : 10 ≤ distance) :
    0 ≤ (AmbientEnergySource.new.SetEnergyDensity 0.001).CalculateHarvestRate distance ∧
    (AmbientEnergySource.new.SetEnergyDensity 0.001).CalculateHarvestRate distance
      ≤ 0.00001 := by
  have hc : AmbientEnergySource.clampDistance distance = distance := by
    rw [clampDistance_eq_max, max_eq_left]
    linarith
  have hpos : (0 : ℚ) < distance := by linarith
  have hsq : (100 : ℚ) ≤ distance * distance := by nlinarith
  simp only [AmbientEnergySource.CalculateHarvestRate, AmbientEnergySource.SetEnergyDensity, hc]
  refine ⟨?_, ?_⟩
  · exact div_nonneg (by norm_num) (le_of_lt (mul_pos hpos hpos))
  · rw [div_le_iff₀ (mul_pos hpos hpos)]
    linarith

/-- A device of the registry of `main` whose nodes are on the ground is either
a carrier source with the harvester off, or a device that holds nothing, has
never harvested, and harvests at a rate between `0` and `0.00001`. -/
theorem mainAmbientDevices_entry (sqrt : ℚ → ℚ) (hsqrt : ∀ s : ℚ, 100 ≤ s → 10 ≤ sqrt s)
    (activeDevices monostaticDevices bistaticDevices : List Vector)
    (hz : ∀ p ∈ activeDevices ++ monostaticDevices ++ bistaticDevices, p.z = 0)
    (uninit : Nat → ℚ) (i : Nat) (dev : AmbientIoTDevice)
    (hdev : (mainAmbientDevices sqrt activeDevices monostaticDevices bistaticDevices
      uninit)[i]? = some dev) :
    (dev.m_deviceType = CARRIER_WAVE_SOURCE ∧ dev.m_hasEnergyHarvester = false) ∨
    (dev.m_deviceType ≠ CARRIER_WAVE_SOURCE ∧ dev.m_currentEnergy = 0 ∧
      dev.m_lastHarvestTime = Seconds 0 ∧ dev.m_hasEnergyHarvester = true ∧
      0 ≤ dev.m_harvestRate ∧ dev.m_harvestRate ≤ 0.00001) := by
  have hten : (10 : ℚ) ≤ DBL_MAX := by norm_num [DBL_MAX]
  have hbs : ∀ devicePos : Vector, devicePos.z = 0 →
      10 ≤ (nearestScan sqrt devicePos bsPositions).1 := by
    intro devicePos h0
    exact nearestScan_minDist_ge sqrt devicePos bsPositions 10 hten
      (fun p hp => calcDistance_main_ge_ten sqrt hsqrt devicePos h0 p
        (List.mem_append_left _ hp))
  have hcw : ∀ devicePos : Vector, devicePos.z = 0 →
      10 ≤ (nearestScan sqrt devicePos cwPositions).1 := by
    intro devicePos h0
    exact nearestScan_minDist_ge sqrt devicePos cwPositions 10 hten
      (fun p hp => calcDistance_main_ge_ten sqrt hsqrt devicePos h0 p
        (List.mem_append_right _ hp))
  rcases buildAmbientDevices_entry sqrt _ bsPositions cwPositions activeDevices
      monostaticDevices bistaticDevices uninit i dev hdev with
    ⟨_, hcar⟩ | ⟨n, devicePos, hn, _, hact⟩ | ⟨n, devicePos, hn, _, hmono⟩ |
    ⟨n, devicePos, hn, _, hbi⟩
  · subst hcar
    exact Or.inl ⟨rfl, rfl⟩
  · subst hact
    have h0 : devicePos.z = 0 :=
      hz devicePos (List.mem_append_left _ (List.mem_append_left _ (List.getElem?_mem hn)))
    obtain ⟨r0, r1⟩ := calculateHarvestRate_main_le _ (hbs devicePos h0)
    exact Or.inr ⟨fun h => AmbientIoTDeviceType.noConfusion h, rfl, rfl, rfl, r0, r1⟩
  · subst hmono
    have h0 : devicePos.z = 0 :=
      hz devicePos (List.mem_append_left _ (List.mem_append_right _ (List.getElem?_mem hn)))
    obtain ⟨r0, r1⟩ := calculateHarvestRate_main_le _ (hbs devicePos h0)
    exact Or.inr ⟨fun h => AmbientIoTDeviceType.noConfusion h, rfl, rfl, rfl, r0, r1⟩
  · subst hbi
    have h0 : devicePos.z = 0 :=
      hz devicePos (List.mem_append_right _ (List.getElem?_mem hn))
    obtain ⟨r0, r1⟩ := calculateHarvestRate_main_le _
      (le_min (hbs devicePos h0) (hcw devicePos h0))
    exact Or.inr ⟨fun h => AmbientIoTDeviceType.noConfusion h, rfl, rfl, rfl, r0, r1⟩

/-- A device that holds nothing, has never harvested and harvests at a rate of
at most `0.00001` fails a check at any time from `0` to `119` s: the
energy it has accrued is `rate * now`, at most `119 * 0.001 / 100`, below the
`0.01` of a backscatter and the `0.1` of an active transmission. -/
theorem canTransmit_starved (now : Time) (dev : AmbientIoTDevice)
    (hrole : dev.m_deviceType ≠ CARRIER_WAVE_SOURCE) (hE : dev.m_currentEnergy = 0)
    (hlast : dev.m_lastHarvestTime = Seconds 0) (hon : dev.m_hasEnergyHarvester = true)
    (hr1 : dev.m_harvestRate ≤ 0.00001) (ht0 : 0 ≤ now) (ht1 : now ≤ 119) :
    (harvestUpdate now dev).m_currentEnergy = dev.m_harvestRate * now ∧
    (harvestUpdate now dev).m_currentEnergy ≤ 119 * 0.001 / 100 ∧
    dev.CanTransmit now = (false, harvestUpdate now dev) := by
  have hacc : (harvestUpdate now dev).m_currentEnergy = dev.m_harvestRate * now := by
    rw [harvestUpdate_energy, hE, hlast]
    simp [hon, Seconds]
  have hle : dev.m_harvestRate * now ≤ 119 * 0.001 / 100 := by
    have h1 : dev.m_harvestRate * now ≤ 0.00001 * now := mul_le_mul_of_nonneg_right hr1 ht0
    have h2 : (0.00001 : ℚ) * now ≤ 0.00001 * 119 := by
      apply mul_le_mul_of_nonneg_left ht1
      norm_num
    have h3 : (0.00001 : ℚ) * 119 = 119 * 0.001 / 100 := by norm_num
    linarith
  have hsmall : ¬ (harvestUpdate now dev).m_currentEnergy ≥ 0.01 := by
    rw [hacc]
    have : (119 : ℚ) * 0.001 / 100 < 0.01 := by norm_num
    intro hge
    linarith
  have hsmall1 : ¬ (harvestUpdate now dev).m_currentEnergy ≥ 0.1 := by
    intro hge
    apply hsmall
    have : (0.01 : ℚ) ≤ 0.1 := by norm_num
    exact le_trans this hge
  refine ⟨hacc, hacc ▸ hle, ?_⟩
  have ht := harvestUpdate_deviceType now dev
  unfold CanTransmit energySwitch
  cases hty : dev.m_deviceType with
  | ACTIVE_DEVICE =>
    rw [hty] at ht
    simp [ht, hsmall1]
  | MONOSTATIC_BACKSCATTER =>
    rw [hty] at ht
    simp [ht, hsmall]
  | BISTATIC_BACKSCATTER =>
    rw [hty] at ht
    simp [ht, hsmall]
  | CARRIER_WAVE_SOURCE => exact absurd hty hrole

/-- The event the scheduling loop creates for the device at index `i`. -/
theorem scheduleTransmissions_getElem? (devs : List AmbientIoTDevice) (i : Nat) :
    (scheduleTransmissions devs)[i]? = devs[i]?.map (fun device =>
      if device.m_deviceType = CARRIER_WAVE_SOURCE then
        { time := Seconds 10, device := i, role := CARRIER_WAVE_SOURCE }
      else
        { time := Seconds (60 + ((i % 60 : Nat) : ℚ)), device := i,
          role := device.m_deviceType }) := by
  simp [scheduleTransmissions, List.getElem?_mapIdx, GetDeviceType]

/-- The event at position `k` of the schedule is about device `k`, carries its
role, and for a device that is no carrier source its time is `60 + (k % 60)`. -/
theorem scheduleTransmissions_event (devs : List AmbientIoTDevice) (k : Nat)
    (ev : ScheduledCheck) (h : (scheduleTransmissions devs)[k]? = some ev) :
    ∃ dev, devs[k]? = some dev ∧ ev.device = k ∧ ev.role = dev.m_deviceType ∧
      (dev.m_deviceType ≠ CARRIER_WAVE_SOURCE →
        ev.time = Seconds (60 + ((k % 60 : Nat) : ℚ))) := by
  rw [scheduleTransmissions_getElem?] at h
  cases hd : devs[k]? with
  | none => simp [hd] at h
  | some dev =>
    simp only [hd, Option.map_some', Option.some.injEq] at h
    refine ⟨dev, rfl, ?_⟩
    by_cases hc : dev.m_deviceType = CARRIER_WAVE_SOURCE
    · rw [if_pos hc] at h
      subst h
      exact ⟨rfl, hc.symm, fun hne => absurd hc hne⟩
    · rw [if_neg hc] at h
      subst h
      exact ⟨rfl, rfl, fun _ => rfl⟩

theorem scheduleTransmissions_pairwise (devs : List AmbientIoTDevice) :
    (scheduleTransmissions devs).Pairwise (fun a b => a.device ≠ b.device) := by
  rw [List.pairwise_iff_getElem]
  intro i j hi hj hij
  have h1 : (scheduleTransmissions devs)[i]? = some (scheduleTransmissions devs)[i] :=
    List.getElem?_eq_getElem hi
  have h2 : (scheduleTransmissions devs)[j]? = some (scheduleTransmissions devs)[j] :=
    List.getElem?_eq_getElem hj
  obtain ⟨_, _, e1, _⟩ := scheduleTransmissions_event devs i _ h1
  obtain ⟨_, _, e2, _⟩ := scheduleTransmissions_event devs j _ h2
  rw [e1, e2]
  exact Nat.ne_of_lt hij

theorem start_time_bounds (i : Nat) :
    (0 : ℚ) ≤ Seconds (60 + ((i % 60 : Nat) : ℚ)) ∧
    Seconds (60 + ((i % 60 : Nat) : ℚ)) ≤ 119 := by
  have h : i % 60 < 60 := Nat.mod_lt i (by norm_num)
  have h1 : ((i % 60 : Nat) : ℚ) ≤ 59 := by
    exact_mod_cast Nat.le_of_lt_succ h
  have h0 : (0 : ℚ) ≤ ((i % 60 : Nat) : ℚ) := Nat.cast_nonneg _
  unfold Seconds
  constructor <;> linarith

/-- Firing the event of a device that is still as it was built: a carrier
source answers true; a device that holds nothing and harvests at most `0.00001`
J/s, checked between `0` and `119` s, makes the condition of its event false.
Either way only that device changes, and only by its accrual. -/
theorem fireCheck_starved (ev : ScheduledCheck) (cur : List AmbientIoTDevice)
    (dev : AmbientIoTDevice) (hcur : cur[ev.device]? = some dev)
    (hrole : ev.role = dev.m_deviceType)
    (hstarved : dev.m_deviceType ≠ CARRIER_WAVE_SOURCE →
      dev.m_currentEnergy = 0 ∧ dev.m_lastHarvestTime = Seconds 0 ∧
      dev.m_hasEnergyHarvester = true ∧ dev.m_harvestRate ≤ 0.00001 ∧
      0 ≤ ev.time ∧ ev.time ≤ 119) :
    ∃ flag, fireCheck ev cur = some (flag, cur.set ev.device (harvestUpdate ev.time dev)) ∧
      (ev.role ≠ CARRIER_WAVE_SOURCE → flag = false) := by
  by_cases hc : dev.m_deviceType = CARRIER_WAVE_SOURCE
  · refine ⟨true, ?_, fun hne => absurd (hrole.trans hc) hne⟩
    simp [fireCheck, hrole, hc, callCanTransmit, hcur, canTransmit_carrier ev.time dev hc]
  · obtain ⟨hE, hlast, hon, hr1, ht0, ht1⟩ := hstarved hc
    have hres := (canTransmit_starved ev.time dev hc hE hlast hon hr1 ht0 ht1).2.2
    refine ⟨false, ?_, fun _ => rfl⟩
    cases hty : dev.m_deviceType with
    | ACTIVE_DEVICE =>
      simp [fireCheck, hrole, hty, callCanTransmit, hcur, hres]
    | MONOSTATIC_BACKSCATTER =>
      simp [fireCheck, hrole, hty, callCanTransmit, hcur, hres]
    | BISTATIC_BACKSCATTER =>
      simp [fireCheck, hrole, hty, bistaticEvent, callCanTransmit, hcur, hres]
    | CARRIER_WAVE_SOURCE => exact absurd hty hc

/-- Firing, in any order, events about distinct devices that are all still as
built: every event completes, none about a harvesting device has a true
condition, and each device ends as its accrual at the time of its event left
it. -/
theorem fireAll_starved (pending : List ScheduledCheck) :
    ∀ cur : List AmbientIoTDevice,
      (∀ ev ∈ pending, ∃ dev, cur[ev.device]? = some dev ∧ ev.role = dev.m_deviceType ∧
        (dev.m_deviceType ≠ CARRIER_WAVE_SOURCE →
          dev.m_currentEnergy = 0 ∧ dev.m_lastHarvestTime = Seconds 0 ∧
          dev.m_hasEnergyHarvester = true ∧ dev.m_harvestRate ≤ 0.00001 ∧
          0 ≤ ev.time ∧ ev.time ≤ 119)) →
      pending.Pairwise (fun a b => a.device ≠ b.device) →
      ∃ flags devs2, fireAll pending cur = some (flags, devs2) ∧
        flags.map Prod.fst = pending ∧
        (∀ ef ∈ flags, ef.1.role ≠ CARRIER_WAVE_SOURCE → ef.2 = false) ∧
        (∀ ev ∈ pending, ∀ dev, cur[ev.device]? = some dev →
          devs2[ev.device]? = some (harvestUpdate ev.time dev)) ∧
        (∀ k, (∀ ev ∈ pending, ev.device ≠ k) → devs2[k]? = cur[k]?) := by
  induction pending with
  | nil =>
    intro cur _ _
    exact ⟨[], cur, rfl, rfl, by simp, by simp, fun _ _ => rfl⟩
  | cons ev rest ih =>
    intro cur hall hpair
    rw [List.pairwise_cons] at hpair
    obtain ⟨dev, hcur, hrole, hstarved⟩ := hall ev (List.mem_cons_self ev rest)
    obtain ⟨flag, hfire, hflag⟩ := fireCheck_starved ev cur dev hcur hrole hstarved
    have hlen : ev.device < cur.length := lt_length_of_getElem? cur ev.device dev hcur
    have hother : ∀ k, k ≠ ev.device →
        (cur.set ev.device (harvestUpdate ev.time dev))[k]? = cur[k]? := by
      intro k hk
      exact List.getElem?_set_ne (Ne.symm hk)
    have hall1 : ∀ ev1 ∈ rest, ∃ dev1,
        (cur.set ev.device (harvestUpdate ev.time dev))[ev1.device]? = some dev1 ∧
        ev1.role = dev1.m_deviceType ∧
        (dev1.m_deviceType ≠ CARRIER_WAVE_SOURCE →
          dev1.m_currentEnergy = 0 ∧ dev1.m_lastHarvestTime = Seconds 0 ∧
          dev1.m_hasEnergyHarvester = true ∧ dev1.m_harvestRate ≤ 0.00001 ∧
          0 ≤ ev1.time ∧ ev1.time ≤ 119) := by
      intro ev1 h1
      obtain ⟨dev1, hc1, hr1, hs1⟩ := hall ev1 (List.mem_cons_of_mem ev h1)
      refine ⟨dev1, ?_, hr1, hs1⟩
      rw [hother ev1.device (Ne.symm (hpair.1 ev1 h1))]
      exact hc1
    obtain ⟨flags, devs2, hrun, hmap, hfalse, hend, hframe⟩ :=
      ih (cur.set ev.device (harvestUpdate ev.time dev)) hall1 hpair.2
    refine ⟨(ev, flag) :: flags, devs2, ?_, ?_, ?_, ?_, ?_⟩
    · simp [fireAll, hfire, hrun]
    · simp [hmap]
    · intro ef hef
      rcases List.mem_cons.mp hef with h | h
      · subst h
        exact hflag
      · exact hfalse ef h
    · intro ev1 h1 dev1 hc1
      rcases List.mem_cons.mp h1 with h | h
      · subst h
        rw [hframe ev1.device (fun ev2 h2 => Ne.symm (hpair.1 ev2 h2))]
        rw [hcur] at hc1
        cases hc1
        simp [hlen]
      · refine hend ev1 h dev1 ?_
        rw [hother ev1.device (Ne.symm (hpair.1 ev1 h))]
        exact hc1
    · intro k hk
      rw [hframe k (fun ev2 h2 => hk ev2 (List.mem_cons_of_mem ev h2))]
      exact hother k (Ne.symm (hk ev (List.mem_cons_self ev rest)))

/-- C17: in the scenario of `main` no energy-harvesting device is ever
eligible. Density `0.001`, readers and carrier sources at `bsPositions` and
`cwPositions`, every device node anywhere on the ground (`z = 0`), and any
square root that is at least `10` from `100` on. (a) Every device of the
registry that is no carrier source starts with stored energy `0`, gets exactly
one event of the schedule, at `60 + (i mod 60) <= 119` s, has accrued at most
`119 * 0.001 / 100 < 0.01` J by then, and its `CanTransmit` at that time returns
false and deducts nothing. (b) Whatever the order in which the simulator fires
the scheduled events, every event completes, the condition of every event of a
harvesting device is false, and every such device ends with its accrued energy
untouched. -/
theorem main_scenario_never_eligible (sqrt : ℚ → ℚ)
    (hsqrt : ∀ s : ℚ, 100 ≤ s → 10 ≤ sqrt s)
    (activeDevices monostaticDevices bistaticDevices : List Vector)
    (hz : ∀ p ∈ activeDevices ++ monostaticDevices ++ bistaticDevices, p.z = 0)
    (uninit : Nat → ℚ) :
    (∀ i dev,
      (mainAmbientDevices sqrt activeDevices monostaticDevices bistaticDevices uninit)[i]?
        = some dev →
      dev.m_deviceType ≠ CARRIER_WAVE_SOURCE →
      dev.m_currentEnergy = 0 ∧
      (scheduleTransmissions (mainAmbientDevices sqrt activeDevices monostaticDevices
        bistaticDevices uninit))[i]?
        = some { time := Seconds (60 + ((i % 60 : Nat) : ℚ)), device := i,
                 role := dev.m_deviceType } ∧
      (∀ k ev, (scheduleTransmissions (mainAmbientDevices sqrt activeDevices
        monostaticDevices bistaticDevices uninit))[k]? = some ev → ev.device = i → k = i) ∧
      Seconds (60 + ((i % 60 : Nat) : ℚ)) ≤ 119 ∧
      (harvestUpdate (Seconds (60 + ((i % 60 : Nat) : ℚ))) dev).m_currentEnergy
        ≤ 119 * 0.001 / 100 ∧
      (119 * 0.001 / 100 : ℚ) < 0.01 ∧
      dev.CanTransmit (Seconds (60 + ((i % 60 : Nat) : ℚ)))
        = (false, harvestUpdate (Seconds (60 + ((i % 60 : Nat) : ℚ))) dev)) ∧
    (∀ order : List ScheduledCheck,
      order.Perm (scheduleTransmissions (mainAmbientDevices sqrt activeDevices
        monostaticDevices bistaticDevices uninit)) →
      ∃ flags devs2,
        fireAll order (mainAmbientDevices sqrt activeDevices monostaticDevices
          bistaticDevices uninit) = some (flags, devs2) ∧
        flags.map Prod.fst = order ∧
        (∀ ef ∈ flags, ef.1.role ≠ CARRIER_WAVE_SOURCE → ef.2 = false) ∧
        (∀ i dev,
          (mainAmbientDevices sqrt activeDevices monostaticDevices bistaticDevices
            uninit)[i]? = some dev →
          dev.m_deviceType ≠ CARRIER_WAVE_SOURCE →
          devs2[i]? = some (harvestUpdate (Seconds (60 + ((i % 60 : Nat) : ℚ))) dev))) := by
  have hentry : ∀ (i : Nat) (dev : AmbientIoTDevice),
      (mainAmbientDevices sqrt activeDevices monostaticDevices bistaticDevices uninit)[i]?
        = some dev →
      dev.m_deviceType ≠ CARRIER_WAVE_SOURCE →
      dev.m_currentEnergy = 0 ∧ dev.m_lastHarvestTime = Seconds 0 ∧
        dev.m_hasEnergyHarvester = true ∧ dev.m_harvestRate ≤ 0.00001 := by
    intro i dev hdev hne
    rcases mainAmbientDevices_entry sqrt hsqrt activeDevices monostaticDevices
      bistaticDevices hz uninit i dev hdev with ⟨hc, _⟩ | ⟨_, hE, hlast, hon, _, hr1⟩
    · exact absurd hc hne
    · exact ⟨hE, hlast, hon, hr1⟩
  have hsched : ∀ (i : Nat) (dev : AmbientIoTDevice),
      (mainAmbientDevices sqrt activeDevices monostaticDevices bistaticDevices uninit)[i]?
        = some dev →
      dev.m_deviceType ≠ CARRIER_WAVE_SOURCE →
      (scheduleTransmissions (mainAmbientDevices sqrt activeDevices monostaticDevices
        bistaticDevices uninit))[i]?
        = some { time := Seconds (60 + ((i % 60 : Nat) : ℚ)), device := i,
                 role := dev.m_deviceType } := by
    intro i dev hdev hne
    rw [scheduleTransmissions_getElem?, hdev]
    simp [hne]
  refine ⟨?_, ?_⟩
  · intro i dev hdev hne
    obtain ⟨hE, hlast, hon, hr1⟩ := hentry i dev hdev hne
    obtain ⟨ht0, ht1⟩ := start_time_bounds i
    obtain ⟨_, hle, hres⟩ := canTransmit_starved _ dev hne hE hlast hon hr1 ht0 ht1
    refine ⟨hE, hsched i dev hdev hne, ?_, ht1, hle, by norm_num, hres⟩
    intro k ev hk hki
    obtain ⟨_, _, hkdev, _⟩ := scheduleTransmissions_event _ k ev hk
    rw [← hkdev, hki]
  · intro order hperm
    have hall : ∀ ev ∈ order, ∃ dev,
        (mainAmbientDevices sqrt activeDevices monostaticDevices bistaticDevices
          uninit)[ev.device]? = some dev ∧ ev.role = dev.m_deviceType ∧
        (dev.m_deviceType ≠ CARRIER_WAVE_SOURCE →
          dev.m_currentEnergy = 0 ∧ dev.m_lastHarvestTime = Seconds 0 ∧
          dev.m_hasEnergyHarvester = true ∧ dev.m_harvestRate ≤ 0.00001 ∧
          0 ≤ ev.time ∧ ev.time ≤ 119) := by
      intro ev hev
      obtain ⟨k, hk⟩ := List.mem_iff_getElem?.mp (hperm.mem_iff.mp hev)
      obtain ⟨dev, hdev, hkdev, hrole, htime⟩ := scheduleTransmissions_event _ k ev hk
      refine ⟨dev, hkdev ▸ hdev, hrole, ?_⟩
      intro hne
      obtain ⟨hE, hlast, hon, hr1⟩ := hentry k dev hdev hne
      obtain ⟨ht0, ht1⟩ := start_time_bounds k
      rw [htime hne]
      exact ⟨hE, hlast, hon, hr1, ht0, ht1⟩
    have hpair : order.Pairwise (fun a b => a.device ≠ b.device) :=
      (List.Perm.pairwise_iff (fun h => Ne.symm h) hperm).mpr
        (scheduleTransmissions_pairwise _)
    obtain ⟨flags, devs2, hrun, hmap, hfalse, hend, _⟩ :=
      fireAll_starved order _ hall hpair
    refine ⟨flags, devs2, hrun, hmap, hfalse, ?_⟩
    intro i dev hdev hne
    have hmem : ScheduledCheck.mk (Seconds (60 + ((i % 60 : Nat) : ℚ))) i dev.m_deviceType
        ∈ order :=
      hperm.mem_iff.mpr (List.getElem?_mem (hsched i dev hdev hne))
    exact hend _ hmem dev hdev

theorem sqrtExact_ge_ten (s : ℚ) (hs : 100 ≤ s) : 10 ≤ sqrtExact s := by
  have hden : (0 : ℚ) < (s.den : ℚ) := by exact_mod_cast s.den_pos
  have hnum : (100 : ℚ) * s.den ≤ s.num := by
    have h := hs
    rw [← Rat.num_div_den s, le_div_iff₀ hden] at h
    exact h
  have hnumZ : (100 : ℤ) * s.den ≤ s.num := by exact_mod_cast hnum
  have hnonneg : 0 ≤ s.num := le_trans (by positivity) hnumZ
  have hnat : 100 * s.den ≤ s.num.toNat := by
    have h1 : ((s.num.toNat : ℕ) : ℤ) = s.num := Int.toNat_of_nonneg hnonneg
    have h2 : ((100 * s.den : ℕ) : ℤ) ≤ ((s.num.toNat : ℕ) : ℤ) := by
      rw [h1]
      exact_mod_cast hnumZ
    exact_mod_cast h2
  have hsd : 0 < Nat.sqrt s.den := Nat.sqrt_pos.mpr s.den_pos
  have hkey : 10 * Nat.sqrt s.den ≤ Nat.sqrt s.num.toNat := by
    rw [Nat.le_sqrt]
    have hsq := Nat.sqrt_le s.den
    calc 10 * Nat.sqrt s.den * (10 * Nat.sqrt s.den)
        = 100 * (Nat.sqrt s.den * Nat.sqrt s.den) := by ring
      _ ≤ 100 * s.den := Nat.mul_le_mul_left 100 hsq
      _ ≤ s.num.toNat := hnat
  unfold sqrtExact
  rw [le_div_iff₀ (by exact_mod_cast hsd)]
  exact_mod_cast hkey

/-- Witness of C17: the scenario of `main` with one active device on the
ground at `(3, 4, 0)`. It is entry `5` of the registry, after the five carrier
sources, and its check at `65` s returns false. -/
theorem main_scenario_never_eligible_witness :
    (∀ s : ℚ, 100 ≤ s → 10 ≤ sqrtExact s) ∧
    (∀ p ∈ ([⟨3, 4, 0⟩] : List Vector) ++ [] ++ [], p.z = 0) ∧
    ∃ dev, (mainAmbientDevices sqrtExact [⟨3, 4, 0⟩] [] [] (fun _ => 0))[5]? = some dev ∧
      dev.m_deviceType = ACTIVE_DEVICE ∧
      dev.CanTransmit (Seconds (60 + ((5 % 60 : Nat) : ℚ)))
        = (false, harvestUpdate (Seconds (60 + ((5 % 60 : Nat) : ℚ))) dev) := by
  have hz : ∀ p ∈ ([⟨3, 4, 0⟩] : List Vector) ++ [] ++ [], p.z = 0 := by
    intro p hp
    simp only [List.append_nil, List.mem_singleton] at hp
    rw [hp]
  have hreg : (mainAmbientDevices sqrtExact [⟨3, 4, 0⟩] [] [] (fun _ => 0))[5]?
      = some (setupActiveDevice sqrtExact (AmbientEnergySource.new.SetEnergyDensity 0.001)
        bsPositions 0 ⟨3, 4, 0⟩ 0) := by
    simp [mainAmbientDevices, buildAmbientDevices, cwPositions, List.mapIdx_cons]
  refine ⟨sqrtExact_ge_ten, hz, _, hreg, rfl, ?_⟩
  exact ((main_scenario_never_eligible sqrtExact sqrtExact_ge_ten [⟨3, 4, 0⟩] [] [] hz
    (fun _ => 0)).1 5 _ hreg (fun h => AmbientIoTDeviceType.noConfusion h)).2.2.2.2.2.2

/-! ### `CalculateHarvestRate` in binary64 -/

namespace Binary64

open Double

theorem roundHalfEven_near (y : ℚ) (n : ℤ) (h : |y - n| < 1 / 2) : roundHalfEven y = n := by
  rw [abs_lt] at h
  obtain ⟨h1, h2⟩ := h
  by_cases hle : (n : ℚ) ≤ y
  · have hf : ⌊y⌋ = n := Int.floor_eq_iff.mpr ⟨hle, by linarith⟩
    unfold roundHalfEven
    rw [hf, if_pos (by linarith)]
  · have hf : ⌊y⌋ = n - 1 := by
      apply Int.floor_eq_iff.mpr
      push_cast
      constructor <;> linarith
    unfold roundHalfEven
    rw [hf]
    have e1 : ¬ (y - ((n - 1 : ℤ) : ℚ) < 1 / 2) := by
      push_cast
      linarith
    have e2 : 1 / 2 < y - ((n - 1 : ℤ) : ℚ) := by
      push_cast
      linarith
    rw [if_neg e1, if_pos e2]
    ring

theorem floor_le_roundHalfEven (y : ℚ) : ⌊y⌋ ≤ roundHalfEven y := by
  unfold roundHalfEven
  split
  · exact le_rfl
  · split
    · omega
    · split <;> omega

theorem log_two_eq (x : ℚ) (e : ℤ) (hlo : (2 : ℚ) ^ e ≤ x) (hhi : x < (2 : ℚ) ^ (e + 1)) :
    Int.log 2 x = e := by
  have hpos : 0 < x := lt_of_lt_of_le (by positivity) hlo
  have h1 : e ≤ Int.log 2 x := by
    apply (Int.zpow_le_iff_le_log (by norm_num) hpos).mp
    exact_mod_cast hlo
  have h2 : Int.log 2 x < e + 1 := by
    apply (Int.lt_zpow_iff_log_lt (by norm_num) hpos).mp
    exact_mod_cast hhi
  omega

theorem round64_eq (x : ℚ) (e n : ℤ) (hx : 0 < x) (he : -1022 ≤ e) (hlo : (2 : ℚ) ^ e ≤ x)
    (hhi : x < (2 : ℚ) ^ (e + 1)) (hn1 : (n : ℚ) - 1 / 2 < x / 2 ^ (e - 52))
    (hn2 : x / 2 ^ (e - 52) < (n : ℚ) + 1 / 2) (hn0 : 0 ≤ n)
    (hmax : (n : ℚ) * 2 ^ (e - 52) ≤ DBL_MAX) :
    round64 x = Double.finite (n * 2 ^ (e - 52)) := by
  have habs : |x| = x := abs_of_pos hx
  have hlog := log_two_eq x e hlo hhi
  have hn : |x / 2 ^ (e - 52) - n| < 1 / 2 := by
    rw [abs_lt]
    constructor <;> linarith
  have hr : |(n : ℚ) * 2 ^ (e - 52)| = (n : ℚ) * 2 ^ (e - 52) :=
    abs_of_nonneg (mul_nonneg (by exact_mod_cast hn0) (by positivity))
  unfold round64
  simp only [habs, hlog, max_eq_left he, roundHalfEven_near _ _ hn, hr,
    if_neg (not_lt.mpr hmax)]

theorem round64_ne_zero (x : ℚ) (hx : (2 : ℚ) ^ (-1022 : ℤ) ≤ x) :
    round64 x ≠ Double.finite 0 := by
  have hpos : 0 < x := lt_of_lt_of_le (by positivity) hx
  have habs : |x| = x := abs_of_pos hpos
  have hL : (-1022 : ℤ) ≤ Int.log 2 x := by
    apply (Int.zpow_le_iff_le_log (by norm_num) hpos).mp
    exact_mod_cast hx
  have hupos : (0 : ℚ) < 2 ^ (Int.log 2 x - 52) := by positivity
  have hy : (1 : ℚ) ≤ x / 2 ^ (Int.log 2 x - 52) := by
    rw [le_div_iff₀ hupos, one_mul]
    have h1 : ((2 : ℕ) : ℚ) ^ Int.log 2 x ≤ x := Int.zpow_log_le_self (by norm_num) hpos
    have h2 : (2 : ℚ) ^ (Int.log 2 x - 52) ≤ (2 : ℚ) ^ Int.log 2 x :=
      zpow_le_zpow_right₀ (by norm_num) (by omega)
    exact le_trans h2 (by exact_mod_cast h1)
  have hn : (1 : ℤ) ≤ roundHalfEven (x / 2 ^ (Int.log 2 x - 52)) :=
    le_trans (Int.le_floor.mpr (by exact_mod_cast hy)) (floor_le_roundHalfEven _)
  have hr : (0 : ℚ) < roundHalfEven (x / 2 ^ (Int.log 2 x - 52)) * 2 ^ (Int.log 2 x - 52) := by
    apply mul_pos _ hupos
    exact_mod_cast lt_of_lt_of_le zero_lt_one hn
  unfold round64
  simp only [habs, max_eq_left hL]
  split
  · intro h
    cases h
  · intro h
    injection h with h
    exact absurd h (ne_of_gt hr)

theorem round64_tenth :
    round64 0.1 = Double.finite (3602879701896397 / 36028797018963968) := by
  have h := round64_eq 0.1 (-4) 7205759403792794 (by norm_num) (by norm_num) (by norm_num)
    (by norm_num) (by norm_num) (by norm_num) (by norm_num) (by norm_num [DBL_MAX])
  rw [h]
  norm_num

theorem round64_hundred : round64 100 = Double.finite 100 := by
  have h := round64_eq 100 6 7036874417766400 (by norm_num) (by norm_num) (by norm_num)
    (by norm_num) (by norm_num) (by norm_num) (by norm_num) (by norm_num [DBL_MAX])
  rw [h]
  norm_num

theorem mul_tenth_tenth :
    (round64 0.1).mul (round64 0.1)
      = Double.finite (1441151880758559 / 144115188075855872) := by
  rw [round64_tenth]
  show round64 (3602879701896397 / 36028797018963968 * (3602879701896397 / 36028797018963968))
    = _
  have h := round64_eq
    (3602879701896397 / 36028797018963968 * (3602879701896397 / 36028797018963968))
    (-7) 5764607523034236 (by norm_num) (by norm_num) (by norm_num)
    (by norm_num) (by norm_num) (by norm_num) (by norm_num) (by norm_num [DBL_MAX])
  rw [h]
  norm_num

theorem one_div_hundredth :
    (Double.finite 1).div (Double.finite (1441151880758559 / 144115188075855872))
      = Double.finite (7036874417766399 / 70368744177664) := by
  show (if (1441151880758559 / 144115188075855872 : ℚ) = 0 then _ else
    round64 (1 / (1441151880758559 / 144115188075855872))) = _
  rw [if_neg (by norm_num)]
  have h := round64_eq (1 / (1441151880758559 / 144115188075855872))
    6 7036874417766399 (by norm_num) (by norm_num) (by norm_num)
    (by norm_num) (by norm_num) (by norm_num) (by norm_num) (by norm_num [DBL_MAX])
  rw [h]
  norm_num

theorem clampDistance_le (distance : Double) (h : distance.le (round64 0.1) = true) :
    AmbientEnergySource.clampDistance distance = round64 0.1 := by
  unfold AmbientEnergySource.clampDistance
  rw [if_pos h]

theorem calculateHarvestRate_of_le (s : AmbientEnergySource) (distance : Double)
    (h : distance.le (round64 0.1) = true) :
    s.CalculateHarvestRate distance
      = s.m_energyDensity.div (Double.finite (1441151880758559 / 144115188075855872)) := by
  show s.m_energyDensity.div ((AmbientEnergySource.clampDistance distance).mul
    (AmbientEnergySource.clampDistance distance)) = _
  rw [clampDistance_le distance h, mul_tenth_tenth]

theorem tenth_le_tenth : (round64 0.1).le (round64 0.1) = true := by
  rw [round64_tenth]
  simp [Double.le]

theorem zero_le_tenth : (Double.finite 0).le (round64 0.1) = true := by
  rw [round64_tenth]
  simp [Double.le]
  norm_num

/-- C6, as stated, fails in the arithmetic of the code: with density `1` and
distance `0` (which is `<= 0.1`) `CalculateHarvestRate` returns
`7036874417766399 / 2^46 = 99.99999999999999`, not `100 * density = 100`. The
product `0.1 * 0.1` is the `double` `0.010000000000000002`, not `1/100`. -/
theorem calculateHarvestRate_not_hundred_counterexample :
    (Double.finite 0).le (round64 0.1) = true ∧
    (AmbientEnergySource.new.SetEnergyDensity (Double.finite 1)).CalculateHarvestRate
      (Double.finite 0) = Double.finite (7036874417766399 / 70368744177664) ∧
    (round64 100).mul (Double.finite 1) = Double.finite 100 ∧
    (AmbientEnergySource.new.SetEnergyDensity (Double.finite 1)).CalculateHarvestRate
      (Double.finite 0) ≠ (round64 100).mul (Double.finite 1) := by
  have hrate : (AmbientEnergySource.new.SetEnergyDensity (Double.finite 1)).CalculateHarvestRate
      (Double.finite 0) = Double.finite (7036874417766399 / 70368744177664) := by
    rw [calculateHarvestRate_of_le _ _ zero_le_tenth]
    exact one_div_hundredth
  have hmul : (round64 100).mul (Double.finite 1) = Double.finite 100 := by
    rw [round64_hundred]
    show round64 (100 * 1) = _
    rw [mul_one, round64_hundred]
  refine ⟨zero_le_tenth, hrate, hmul, ?_⟩
  rw [hrate, hmul]
  intro h
  injection h with h
  norm_num at h

/-- C6, amended: for every density and every distance (zero, negative, infinite
and NaN included) `CalculateHarvestRate` returns `density / (c * c)` in binary64
arithmetic, `c` being the clamped distance: the `double` `0.1` when
`distance <= 0.1`, else `distance`, that is `max (distance, 0.1)` for a finite
distance. The divisor `c * c` is never zero. For every `distance <= 0.1` the rate
is the rate at `0.1`; in particular the rate at `0` is the rate at `0.1`. That
common rate is `density / 0.010000000000000002`, the divisor being the `double`
product `0.1 * 0.1`. -/
theorem calculateHarvestRate_binary64 (s : AmbientEnergySource) (distance : Double) :
    s.CalculateHarvestRate distance
      = s.m_energyDensity.div ((AmbientEnergySource.clampDistance distance).mul
        (AmbientEnergySource.clampDistance distance)) ∧
    (∀ q : ℚ, AmbientEnergySource.clampDistance (Double.finite q)
      = Double.finite (max q (3602879701896397 / 36028797018963968))) ∧
    (AmbientEnergySource.clampDistance distance).mul (AmbientEnergySource.clampDistance distance)
      ≠ Double.finite 0 ∧
    (distance.le (round64 0.1) = true →
      s.CalculateHarvestRate distance = s.CalculateHarvestRate (round64 0.1)) ∧
    s.CalculateHarvestRate (Double.finite 0) = s.CalculateHarvestRate (round64 0.1) ∧
    s.CalculateHarvestRate (round64 0.1)
      = s.m_energyDensity.div (Double.finite (1441151880758559 / 144115188075855872)) := by
  have hne : (Double.finite (1441151880758559 / 144115188075855872) : Double)
      ≠ Double.finite 0 := by
    intro h
    injection h with h
    norm_num at h
  refine ⟨rfl, ?_, ?_, ?_, ?_, calculateHarvestRate_of_le s _ tenth_le_tenth⟩
  · intro q
    unfold AmbientEnergySource.clampDistance
    rw [round64_tenth]
    by_cases hq : q ≤ 3602879701896397 / 36028797018963968
    · simp [Double.le, hq, max_eq_right hq]
    · simp [Double.le, hq, max_eq_left (le_of_lt (lt_of_not_ge hq))]
  · by_cases hle : distance.le (round64 0.1) = true
    · rw [clampDistance_le distance hle, mul_tenth_tenth]
      exact hne
    · have hc : AmbientEnergySource.clampDistance distance = distance := by
        unfold AmbientEnergySource.clampDistance
        rw [if_neg hle]
      rw [hc]
      cases distance with
      | nan =>
        intro h
        cases h
      | inf negative =>
        intro h
        cases negative <;> cases h
      | finite q =>
        rw [round64_tenth] at hle
        have hq : ¬ q ≤ 3602879701896397 / 36028797018963968 := by
          simpa [Double.le] using hle
        have hq1 : (3602879701896397 / 36028797018963968 : ℚ) < q := lt_of_not_ge hq
        show round64 (q * q) ≠ Double.finite 0
        apply round64_ne_zero
        have h1 : (2 : ℚ) ^ (-1022 : ℤ) ≤ 1 / 128 := by
          rw [show (1 / 128 : ℚ) = 2 ^ (-7 : ℤ) by norm_num]
          exact zpow_le_zpow_right₀ (by norm_num) (by norm_num)
        have h2 : (1 / 128 : ℚ) ≤ q * q := by nlinarith
        exact le_trans h1 h2
  · intro hle
    rw [calculateHarvestRate_of_le s _ hle, calculateHarvestRate_of_le s _ tenth_le_tenth]
  · rw [calculateHarvestRate_of_le s _ zero_le_tenth,
      calculateHarvestRate_of_le s _ tenth_le_tenth]

end Binary64

end AmbientIoT

namespace ItsSimulation

/-! ## Theorems (`scratch/its-simulation/bsm-header.cc`) -/

open BsmHeader

theorem readLoop_eight (b0 b1 b2 b3 b4 b5 b6 b7 : Nat) (rest : List Nat) :
    readLoop 8 (b0 :: b1 :: b2 :: b3 :: b4 :: b5 :: b6 :: b7 :: rest)
      = some ([b0, b1, b2, b3, b4, b5, b6, b7], rest) := by
  simp [readLoop, ReadU8]

theorem memcpy_roundtrip (value : Nat) (h : value < 2 ^ 64) :
    memcpyFromBuffer (memcpyToBuffer value) = value := by
  simp only [memcpyFromBuffer, memcpyToBuffer, List.foldr_cons, List.foldr_nil]
  norm_num at h ⊢
  omega

theorem nanoSeconds_toUint64 (t : Int) (h1 : -(2 ^ 63) ≤ t) (h2 : t < 2 ^ 63) :
    NanoSeconds ([toUint64 t / 256 ^ 7 % 256, toUint64 t / 256 ^ 6 % 256,
      toUint64 t / 256 ^ 5 % 256, toUint64 t / 256 ^ 4 % 256, toUint64 t / 256 ^ 3 % 256,
      toUint64 t / 256 ^ 2 % 256, toUint64 t / 256 % 256, toUint64 t % 256].foldl
        (fun retval byte => retval * 256 + byte) 0) = t := by
  have hu : toUint64 t < 2 ^ 64 := by
    unfold toUint64
    norm_num
    omega
  have hval : [toUint64 t / 256 ^ 7 % 256, toUint64 t / 256 ^ 6 % 256,
      toUint64 t / 256 ^ 5 % 256, toUint64 t / 256 ^ 4 % 256, toUint64 t / 256 ^ 3 % 256,
      toUint64 t / 256 ^ 2 % 256, toUint64 t / 256 % 256, toUint64 t % 256].foldl
        (fun retval byte => retval * 256 + byte) 0 = toUint64 t := by
    simp only [List.foldl_cons, List.foldl_nil]
    norm_num at hu ⊢
    omega
  rw [hval]
  unfold NanoSeconds toUint64
  norm_num at h1 h2 ⊢
  split <;> omega

/-- C19: the `BsmHeader` round trip. For every header value (a `uint32_t`
vehicle id; position `x`, `y`, `z`, speed and direction as 64-bit patterns; a
timestamp as an `int64_t` count of nanoseconds), `Serialize` writes `52` bytes,
`GetSerializedSize` is `52`, and `Deserialize`, called on any header and reading
the bytes `Serialize` wrote, returns `52`, restores every field exactly, and
reads those `52` bytes and no more. -/
theorem bsmHeader_roundtrip (h other : BsmHeader) (rest : List Nat)
    (hid : h.m_vehicleId < 2 ^ 32)
    (hx : h.m_position.x < 2 ^ 64) (hy : h.m_position.y < 2 ^ 64)
    (hzz : h.m_position.z < 2 ^ 64)
    (hspeed : h.m_speed < 2 ^ 64) (hdir : h.m_direction < 2 ^ 64)
    (ht1 : -(2 ^ 63) ≤ h.m_timestamp) (ht2 : h.m_timestamp < 2 ^ 63) :
    (h.Serialize []).length = 52 ∧
    h.GetSerializedSize = 52 ∧
    other.Deserialize (h.Serialize [] ++ rest) = some (52, h, rest) := by
  have hser : h.Serialize [] =
      [h.m_vehicleId % 256, h.m_vehicleId / 256 % 256, h.m_vehicleId / 256 ^ 2 % 256,
        h.m_vehicleId / 256 ^ 3 % 256]
      ++ memcpyToBuffer h.m_position.x ++ memcpyToBuffer h.m_position.y
      ++ memcpyToBuffer h.m_position.z ++ memcpyToBuffer h.m_speed
      ++ memcpyToBuffer h.m_direction
      ++ [toUint64 h.m_timestamp / 256 ^ 7 % 256, toUint64 h.m_timestamp / 256 ^ 6 % 256,
        toUint64 h.m_timestamp / 256 ^ 5 % 256, toUint64 h.m_timestamp / 256 ^ 4 % 256,
        toUint64 h.m_timestamp / 256 ^ 3 % 256, toUint64 h.m_timestamp / 256 ^ 2 % 256,
        toUint64 h.m_timestamp / 256 % 256, toUint64 h.m_timestamp % 256] := by
    simp [Serialize, WriteU32, WriteHtonU64, WriteU8, writeLoop, memcpyToBuffer]
  have hidback : h.m_vehicleId % 256 + h.m_vehicleId / 256 % 256 * 256
      + h.m_vehicleId / 256 ^ 2 % 256 * 256 ^ 2 + h.m_vehicleId / 256 ^ 3 % 256 * 256 ^ 3
      = h.m_vehicleId := by
    norm_num at hid ⊢
    omega
  refine ⟨?_, rfl, ?_⟩
  · rw [hser]
    simp [memcpyToBuffer]
  · rw [hser]
    have hx1 := memcpy_roundtrip _ hx
    have hy1 := memcpy_roundtrip _ hy
    have hz1 := memcpy_roundtrip _ hzz
    have hs1 := memcpy_roundtrip _ hspeed
    have hd1 := memcpy_roundtrip _ hdir
    have ht := nanoSeconds_toUint64 _ ht1 ht2
    simp only [memcpyToBuffer] at hx1 hy1 hz1 hs1 hd1
    simp only [Deserialize, ReadU32, ReadU8, ReadNtohU64, memcpyToBuffer, List.cons_append,
      List.nil_append, List.append_assoc, readLoop_eight, hidback, hx1, hy1, hz1, hs1, hd1, ht,
      GetSerializedSize]

/-- Witness of C19: vehicle `7` at the patterns of `(1.0, 2.0, 0.0)`, speed
pattern of `10.0`, direction pattern of `-1.0`, timestamp `-5` ns. -/
theorem bsmHeader_roundtrip_witness :
    (BsmHeader.mk 7 ⟨4607182418800017408, 4611686018427387904, 0⟩ 4621819117588971520
      13830554455654793216 (-5)).Serialize []
      = [7, 0, 0, 0,
         0, 0, 0, 0, 0, 0, 240, 63,
         0, 0, 0, 0, 0, 0, 0, 64,
         0, 0, 0, 0, 0, 0, 0, 0,
         0, 0, 0, 0, 0, 0, 36, 64,
         0, 0, 0, 0, 0, 0, 240, 191,
         255, 255, 255, 255, 255, 255, 255, 251] ∧
    ((BsmHeader.mk 7 ⟨4607182418800017408, 4611686018427387904, 0⟩ 4621819117588971520
      13830554455654793216 (-5)).Serialize []).length = 52 ∧
    (BsmHeader.mk 7 ⟨4607182418800017408, 4611686018427387904, 0⟩ 4621819117588971520
      13830554455654793216 (-5)).GetSerializedSize = 52 ∧
    (BsmHeader.mk 0 ⟨0, 0, 0⟩ 0 0 0).Deserialize
      ((BsmHeader.mk 7 ⟨4607182418800017408, 4611686018427387904, 0⟩ 4621819117588971520
        13830554455654793216 (-5)).Serialize [] ++ [1, 2, 3])
      = some (52, BsmHeader.mk 7 ⟨4607182418800017408, 4611686018427387904, 0⟩
        4621819117588971520 13830554455654793216 (-5), [1, 2, 3]) := by
  refine ⟨?_, bsmHeader_roundtrip
    (BsmHeader.mk 7 ⟨4607182418800017408, 4611686018427387904, 0⟩ 4621819117588971520
      13830554455654793216 (-5)) (BsmHeader.mk 0 ⟨0, 0, 0⟩ 0 0 0) [1, 2, 3]
    (by norm_num) (by norm_num) (by norm_num) (by norm_num) (by norm_num) (by norm_num)
    (by norm_num) (by norm_num)⟩
  simp [Serialize, WriteU32, WriteHtonU64, WriteU8, writeLoop, memcpyToBuffer, toUint64]

end ItsSimulation
